import Mathlib

/-!
struct_layout: a GCC plugin that dumps the layout of one named struct.

A shallow embedding of `src/struct_layout.c`.

* GCC `tree` nodes are read-only records holding exactly what the plugin's
  accessor macros read from them.
* The three globals `target_struct`, `dumped_structs` and `output_file` are an
  explicit `plugin_state`. The registry is the chain of nodes as it lies in
  memory, the `next` of a node that was never assigned included. The stream is
  the text `fflush` has pushed to the file plus the text handed to stdio since.
* `gcc_assert`, `gcc_unreachable`, a dereference of `NULL_TREE` and the read of
  a `next` that was never assigned end the defined part of a run: a callback
  therefore yields an `outcome`, either `returned` or `aborted`, each with the
  state reached.
* C strings are Lean strings, `int` is `Int` wrapped to 32 bits, `size_t` and
  `unsigned HOST_WIDE_INT` are `Nat` wrapped to 64 bits.
-/

set_option maxRecDepth 8192

namespace StructLayout

/-! ## Tree nodes -/

/-- The tree codes the plugin can meet: the ones it tests by name and the other
kinds of types, declarations and expressions. -/
inductive tree_code where
  | RECORD_TYPE
  | UNION_TYPE
  | QUAL_UNION_TYPE
  | ARRAY_TYPE
  | POINTER_TYPE
  | REFERENCE_TYPE
  | INTEGER_TYPE
  | REAL_TYPE
  | ENUMERAL_TYPE
  | BOOLEAN_TYPE
  | COMPLEX_TYPE
  | VECTOR_TYPE
  | VOID_TYPE
  | FUNCTION_TYPE
  | FIELD_DECL
  | TYPE_DECL
  | VAR_DECL
  | CONST_DECL
  | INTEGER_CST
  | PLUS_EXPR
  | MULT_EXPR
  deriving DecidableEq

open tree_code

/-- A type node as the field loop sees it: `TREE_CODE`, the identifier text of
`TYPE_IDENTIFIER` (`none` for `NULL_TREE`, an unnamed type), the constants
`TYPE_SIZE` (bits) and `TYPE_SIZE_UNIT` (bytes) (`none` for `NULL_TREE`, an
incomplete type such as a flexible array member), and `TREE_TYPE`, the element
type of an array or the target of a pointer. -/
inductive type_tree where
  | node (code : tree_code) (identifier : Option String) (size : Option Nat)
      (size_unit : Option Nat) (tree_type : Option type_tree)

namespace type_tree

/-- Code of a type node, `TREE_CODE (type)`. -/
def TREE_CODE : type_tree → tree_code
  | node c _ _ _ _ => c

/-- Name of a type node, `IDENTIFIER_POINTER (TYPE_IDENTIFIER (type))`. -/
def TYPE_IDENTIFIER : type_tree → Option String
  | node _ n _ _ _ => n

/-- Size of a type in bits, `TYPE_SIZE (type)`. -/
def TYPE_SIZE : type_tree → Option Nat
  | node _ _ s _ _ => s

/-- Size of a type in bytes, `TYPE_SIZE_UNIT (type)`. -/
def TYPE_SIZE_UNIT : type_tree → Option Nat
  | node _ _ _ u _ => u

/-- Inner type, `TREE_TYPE (type)`. -/
def TREE_TYPE : type_tree → Option type_tree
  | node _ _ _ _ t => t

end type_tree

/-- An offset node, the value of `DECL_FIELD_OFFSET` or `DECL_FIELD_BIT_OFFSET`:
its `TREE_CODE`, its `TREE_CONSTANT` flag and, for an `INTEGER_CST`, its value. -/
structure offset_tree where
  code : tree_code
  constant : Bool
  value : Nat
  deriving DecidableEq

/-- One node of the `TYPE_FIELDS` chain: `TREE_CODE`, the identifier text of
`DECL_NAME` (`none` for `NULL_TREE`), `TREE_TYPE`, `DECL_FIELD_OFFSET` and
`DECL_FIELD_BIT_OFFSET`. -/
structure field_decl where
  code : tree_code
  decl_name : Option String
  type : type_tree
  field_offset : offset_tree
  field_bit_offset : offset_tree

/-- The node handed to the callback: `TREE_CODE`, the `TYPE_FIELDS` chain in
`TREE_CHAIN` order (`[]` for `NULL_TREE`), the node's own `TYPE_NAME` and the
`TYPE_NAME` of its `TYPE_MAIN_VARIANT` (`none` for `NULL_TREE`). -/
structure type_node where
  code : tree_code
  fields : List field_decl
  type_name : Option String
  main_variant_name : Option String

/-- Macro `ORIG_TYPE_NAME`: the name of the main variant, or `NULL`. -/
def ORIG_TYPE_NAME (node : type_node) : Option String :=
  match node.main_variant_name with
  | some id => some id
  | none => none

/-! ## Machine integers and libc -/

/-- Width of `unsigned HOST_WIDE_INT` and of `size_t`. -/
def HOST_BITS : Nat := 64

/-- Low word of an integer constant of the given value, `TREE_INT_CST_LOW`. -/
def TREE_INT_CST_LOW (value : Nat) : Nat := value % 2 ^ HOST_BITS

/-- Conversion of an unsigned word to `int`: the low 32 bits, two's complement. -/
def to_int (n : Nat) : Int :=
  if n % 2 ^ 32 < 2 ^ 31 then ((n % 2 ^ 32 : Nat) : Int) else ((n % 2 ^ 32 : Nat) : Int) - 2 ^ 32

/-- Conversion of an `int` to `unsigned HOST_WIDE_INT` (sign extension). -/
def to_unsigned (i : Int) : Nat := (i % 2 ^ HOST_BITS).toNat

/-- Directive `%d` of `fprintf` on an `int`. -/
def printf_d (i : Int) : String := toString i

/-- Directive `%d` of `fprintf` handed a `size_t`, as lines 188 and 190 do
with `field_size` and `num_elem`: the `int` read from the low half of the
argument, which is the value itself below `2 ^ 31`. -/
def printf_d_size (n : Nat) : String := printf_d (to_int n)

/-- Comparison of two character sequences as `strcmp` orders them. -/
def strcmp_chars : List Char → List Char → Int
  | [], [] => 0
  | [], _ :: _ => -1
  | _ :: _, [] => 1
  | a :: as, b :: bs =>
    if a = b then strcmp_chars as bs else if a.toNat < b.toNat then -1 else 1

/-- Function `strcmp` on C strings, taken as the Lean strings of their
characters: zero exactly on equal strings. -/
def strcmp (a b : String) : Int := strcmp_chars a.data b.data

/-! ## Plugin state -/

/-- Value of a `struct name_list *`: `NULL`, a node with its `name` and its
`next`, or the indeterminate value of a `next` that was never assigned. The
static `dumped_structs` starts with `next` equal to `NULL`; a node made by
`add_dumped` (lines 78-80) gets its name only, and `xmalloc` does not clear it. -/
inductive name_list where
  | NULL
  | node (name : String) (next : name_list)
  | indeterminate
  deriving DecidableEq

/-- The globals of the plugin once `plugin_init` has run: `target_struct`, the
chain `dumped_structs.next`, and `output_file` as the text that `fflush` has
pushed to the file (`flushed`) and the text handed to stdio since (`pending`).
Of the pending text stdio may have written out a part already, as it does
whenever its buffer is full, and `exit` writes out all of it: between two
`fflush` calls the file holds `flushed` and some of `pending`. -/
structure plugin_state where
  target_struct : String
  dumped_structs : name_list
  pending : String
  flushed : String
  deriving DecidableEq

/-- Everything written to `output_file` so far, flushed or not. -/
def written (st : plugin_state) : String := st.flushed ++ st.pending

/-- Call `fprintf (output_file, ...)` with the formatted text `s`: the text is
handed to stdio. -/
def fprintf (st : plugin_state) (s : String) : plugin_state :=
  { st with pending := st.pending ++ s }

/-- Call `fflush (output_file)`: all the text handed to stdio is in the file. -/
def fflush (st : plugin_state) : plugin_state :=
  { st with flushed := st.flushed ++ st.pending, pending := "" }

/-- Function `was_dumped`, walking the chain from `dumped_structs.next`. The
result is `none` when the walk reads a `next` that was never assigned (line 70):
what the call answers then is not defined. -/
def was_dumped : name_list → String → Option Bool
  | .NULL, _ => some false
  | .indeterminate, _ => none
  | .node entry next, name =>
    if strcmp name entry = 0 then some true else was_dumped next name

/-- Function `add_dumped`: makes a node holding a copy of `name`, whose `next`
it never assigns, walks to the node whose `next` is `NULL` and links the new
node there. The result is the new value of `dumped_structs.next`, and `none`
when the walk reads a `next` that was never assigned (line 84). -/
def add_dumped : name_list → String → Option name_list
  | .NULL, name => some (.node name .indeterminate)
  | .indeterminate, _ => none
  | .node entry next, name =>
    match add_dumped next name with
    | none => none
    | some linked => some (.node entry linked)

/-- Function `is_allowed_inner_type`. -/
def is_allowed_inner_type (type : type_tree) : Bool :=
  match type.TREE_CODE with
  | INTEGER_TYPE => true
  | _ => false

/-- Macro `POINTER_TYPE_P` of tree.h. -/
def POINTER_TYPE_P (type : type_tree) : Bool :=
  type.TREE_CODE = POINTER_TYPE || type.TREE_CODE = REFERENCE_TYPE

/-! ## The field loop -/

/-- Why a run ended abnormally or left defined behaviour, by the source line
where it did. -/
inductive failure where
  | indeterminate_next       -- lines 70, 84
  | assert_field_decl        -- line 135
  | null_decl_name           -- lines 140-141
  | null_type_size           -- lines 156, 157, 162, 164
  | null_inner_type          -- lines 159-160, 172-173
  | assert_inner_type        -- lines 160, 173
  | null_type_identifier     -- lines 176-177
  | assert_field_offset      -- line 181
  | assert_field_bit_offset  -- line 185
  | uninitialised_num_elem   -- line 190
  | unreachable              -- line 194
  deriving DecidableEq

/-- The locals of one loop iteration when line 188 is reached. `num_elem` is
`none` while the variable is uninitialised. -/
structure field_record where
  field_class : String
  field_name : String
  offset : Int
  field_size : Nat
  num_elem : Option Nat
  field_type_name : String
  deriving DecidableEq

/-- Lines 179-186: `int offset = TREE_INT_CST_LOW (t_offset);` followed by
`offset += TREE_INT_CST_LOW (t_bit_offset);`, the sum taken in the unsigned
word type and converted back to `int`. -/
def field_offset_value (field : field_decl) : Except failure Int :=
  if field.field_offset.code = INTEGER_CST ∧ field.field_offset.constant = true then
    let offset : Int := to_int (TREE_INT_CST_LOW field.field_offset.value)
    if field.field_bit_offset.code = INTEGER_CST ∧ field.field_bit_offset.constant = true then
      .ok (to_int ((to_unsigned offset + TREE_INT_CST_LOW field.field_bit_offset.value)
        % 2 ^ HOST_BITS))
    else .error .assert_field_bit_offset
  else .error .assert_field_offset

/-- Lines 176-186, shared by the three classes: the name of the current type
and the offset. -/
def classify_finish (field : field_decl) (field_name : String) (field_class : String)
    (field_size : Nat) (num_elem : Option Nat) (field_type : type_tree) :
    Except failure field_record :=
  match field_type.TYPE_IDENTIFIER with
  | none => .error .null_type_identifier
  | some field_type_name =>
    match field_offset_value field with
    | .error e => .error e
    | .ok offset =>
      .ok { field_class := field_class, field_name := field_name, offset := offset,
            field_size := field_size, num_elem := num_elem,
            field_type_name := field_type_name }

/-- Lines 167-186, shared by the three classes: the pointer test on the current
type, then the type name and the offset. -/
def classify_tail (field : field_decl) (field_name : String) (field_class : String)
    (field_size : Nat) (num_elem : Option Nat) (field_type : type_tree) :
    Except failure field_record :=
  if POINTER_TYPE_P field_type then
    match field_type.TREE_TYPE with
    | none => .error .null_inner_type
    | some pointee =>
      if is_allowed_inner_type pointee then
        classify_finish field field_name "Pointer" field_size num_elem pointee
      else .error .assert_inner_type
  else classify_finish field field_name field_class field_size num_elem field_type

/-- Lines 135-186 of the loop body: the checks and the locals they compute. -/
def classify_field (field : field_decl) : Except failure field_record :=
  if field.code ≠ FIELD_DECL then .error .assert_field_decl
  else
    match field.decl_name with
    | none => .error .null_decl_name
    | some field_name =>
      let field_type := field.type
      if field_type.TREE_CODE = ARRAY_TYPE then
        match field_type.TYPE_SIZE, field_type.TYPE_SIZE_UNIT with
        | some size, some size_unit =>
          let field_size := TREE_INT_CST_LOW size
          let num_elem := TREE_INT_CST_LOW size_unit
          match field_type.TREE_TYPE with
          | none => .error .null_inner_type
          | some elem =>
            if is_allowed_inner_type elem then
              match elem.TYPE_SIZE with
              | none => .error .null_type_size
              | some _elem_size =>
                classify_tail field field_name "Array" field_size (some num_elem) elem
            else .error .assert_inner_type
        | _, _ => .error .null_type_size
      else
        match field_type.TYPE_SIZE with
        | none => .error .null_type_size
        | some size =>
          classify_tail field field_name "Scalar" (TREE_INT_CST_LOW size) none field_type

/-- The outcome of a callback: it returned, or the run was aborted; either way
with the state reached. -/
inductive outcome where
  | returned (st : plugin_state)
  | aborted (why : failure) (st : plugin_state)
  deriving DecidableEq

open outcome

/-- State carried by an outcome. -/
def outcome.state : outcome → plugin_state
  | returned st => st
  | aborted _ st => st

/-- Lines 188-196: the three `fprintf` calls that write one record. -/
def print_field (st : plugin_state) (r : field_record) : outcome :=
  let st1 := fprintf st ("\t" ++ r.field_class ++ "('" ++ r.field_name ++ "', "
    ++ printf_d r.offset ++ ", " ++ printf_d_size r.field_size)
  if strcmp r.field_class "Array" = 0 then
    match r.num_elem with
    | none => aborted .uninitialised_num_elem st1
    | some num_elem =>
      returned (fprintf (fprintf st1 (", " ++ printf_d_size num_elem ++ ", '"
        ++ r.field_type_name ++ "'")) "),\n")
  else if strcmp r.field_class "Pointer" = 0 ∨ strcmp r.field_class "Scalar" = 0 then
    returned (fprintf (fprintf st1 (", '" ++ r.field_type_name ++ "'")) "),\n")
  else aborted .unreachable st1

/-- The `for` loop of lines 134-197 over the `TREE_CHAIN` of fields.
`debug_tree_helper` writes to `stdout` only and is left out. -/
def dump_fields (st : plugin_state) : List field_decl → outcome
  | [] => returned st
  | field :: rest =>
    match classify_field field with
    | .error e => aborted e st
    | .ok r =>
      match print_field st r with
      | aborted e st1 => aborted e st1
      | returned st1 => dump_fields st1 rest

/-- Callback `plugin_finish_type`, with `type` the event data. -/
def plugin_finish_type (st : plugin_state) (type : type_node) : outcome :=
  if type.code ≠ RECORD_TYPE ∨ type.fields.isEmpty = true then returned st
  else
    match ORIG_TYPE_NAME type with
    | none => returned st
    | some name =>
      if strcmp name st.target_struct ≠ 0 then returned st
      else
        match was_dumped st.dumped_structs name with
        | none => aborted .indeterminate_next st
        | some true => returned st
        | some false =>
          match add_dumped st.dumped_structs name with
          | none => aborted .indeterminate_next st
          | some registry =>
            let st1 := { st with dumped_structs := registry }
            let st2 := fprintf st1 (name ++ " = [\n")
            match dump_fields st2 type.fields with
            | aborted e st3 => aborted e st3
            | returned st3 => returned (fflush (fprintf st3 "]\n"))

/-! ## Shapes of fields -/

/-- A field the loop body accepts: a `FIELD_DECL` with a name and constant
offsets whose type is a complete array of a complete, named integer type, or a
pointer or reference to a named integer type, or any other complete, named
type. -/
def supported_field (field : field_decl) : Bool :=
  decide (field.code = FIELD_DECL) && field.decl_name.isSome
  && decide (field.field_offset.code = INTEGER_CST) && field.field_offset.constant
  && decide (field.field_bit_offset.code = INTEGER_CST) && field.field_bit_offset.constant
  && field.type.TYPE_SIZE.isSome
  && (if field.type.TREE_CODE = ARRAY_TYPE then
        field.type.TYPE_SIZE_UNIT.isSome
        && (match field.type.TREE_TYPE with
            | some elem => decide (elem.TREE_CODE = INTEGER_TYPE) && elem.TYPE_SIZE.isSome
                && elem.TYPE_IDENTIFIER.isSome
            | none => false)
      else if POINTER_TYPE_P field.type then
        (match field.type.TREE_TYPE with
         | some pointee => decide (pointee.TREE_CODE = INTEGER_TYPE)
             && pointee.TYPE_IDENTIFIER.isSome
         | none => false)
      else field.type.TYPE_IDENTIFIER.isSome)

/-- A field of unsupported shape: an array whose element type, or a pointer or
reference whose target type, is not an integer type. -/
def unsupported_inner (field : field_decl) : Bool :=
  (decide (field.type.TREE_CODE = ARRAY_TYPE) || POINTER_TYPE_P field.type)
  && (match field.type.TREE_TYPE with
      | some inner => !decide (inner.TREE_CODE = INTEGER_TYPE)
      | none => true)

/-- The text the three `fprintf` calls of lines 188-196 write for a record of
class Scalar or Pointer, and for a record of class Array with its count. -/
def record_text (r : field_record) : String :=
  "\t" ++ r.field_class ++ "('" ++ r.field_name ++ "', " ++ printf_d r.offset ++ ", "
    ++ printf_d_size r.field_size
    ++ (match r.num_elem with
        | some num_elem => ", " ++ printf_d_size num_elem ++ ", '" ++ r.field_type_name ++ "'"
        | none => ", '" ++ r.field_type_name ++ "'")
    ++ "),\n"

/-- The record line of a field, empty for a field the loop body aborts on. -/
def field_line (field : field_decl) : String :=
  match classify_field field with
  | .ok r => record_text r
  | .error _ => ""

/-- The record lines of a list of fields, in order. -/
def field_lines : List field_decl → String
  | [] => ""
  | field :: rest => field_line field ++ field_lines rest

/-! ## Sample nodes -/

/-- The type `int`. -/
def int_type : type_tree := .node INTEGER_TYPE (some "int") (some 32) (some 4) none

/-- The type `char`. -/
def char_type : type_tree := .node INTEGER_TYPE (some "char") (some 8) (some 1) none

/-- The type `double`. -/
def double_type : type_tree := .node REAL_TYPE (some "double") (some 64) (some 8) none

/-- An array type of `n` elements of `elem`, an element taking `unit` bytes. -/
def array_of (elem : type_tree) (unit n : Nat) : type_tree :=
  .node ARRAY_TYPE none (some (n * unit * 8)) (some (n * unit)) (some elem)

/-- A 64-bit pointer type to `target`. -/
def pointer_to (target : type_tree) : type_tree :=
  .node POINTER_TYPE none (some 64) (some 8) (some target)

/-- A `FIELD_DECL` called `name` of type `type`, at `DECL_FIELD_OFFSET` `bytes`
and `DECL_FIELD_BIT_OFFSET` `bits`. -/
def field_at (name : String) (type : type_tree) (bytes bits : Nat) : field_decl :=
  { code := FIELD_DECL, decl_name := some name, type := type,
    field_offset := ⟨INTEGER_CST, true, bytes⟩,
    field_bit_offset := ⟨INTEGER_CST, true, bits⟩ }

/-- A `RECORD_TYPE` called `name`, main variant of itself, with these fields. -/
def struct_node (name : String) (fields : List field_decl) : type_node :=
  { code := RECORD_TYPE, fields := fields, type_name := some name,
    main_variant_name := some name }

/-- The state right after `plugin_init` with target `target`. -/
def start_state (target : String) : plugin_state :=
  { target_struct := target, dumped_structs := .NULL, pending := "", flushed := "" }

/-- The node of `struct T { char a[16]; int x; }`: `x` lies 16 bytes in, which
GCC records as `DECL_FIELD_OFFSET` 16 and `DECL_FIELD_BIT_OFFSET` 0. -/
def struct_T_a16_x : type_node :=
  struct_node "T" [field_at "a" (array_of char_type 1 16) 0 0, field_at "x" int_type 16 0]

/-- The node of `struct point { double (*m)[2]; int x; }` under another name
than the target `Point`, its first field of unsupported shape. -/
def struct_point : type_node :=
  struct_node "point" [field_at "m" (pointer_to (array_of double_type 8 2)) 0 0,
    field_at "x" int_type 0 64]

/-- The node of an unnamed `struct { double d[2]; }`, its field of unsupported
shape. -/
def struct_unnamed : type_node :=
  { code := RECORD_TYPE, fields := [field_at "d" (array_of double_type 8 2) 0 0],
    type_name := none, main_variant_name := none }

/-- The node of `struct T { int x; }`. -/
def struct_T_x : type_node := struct_node "T" [field_at "x" int_type 0 0]

/-- The node of `struct T { char c; int x; }`, seen a second time by the host. -/
def struct_T_c_x : type_node :=
  struct_node "T" [field_at "c" char_type 0 0, field_at "x" int_type 0 32]

/-- The type `long int`. -/
def long_type : type_tree := .node INTEGER_TYPE (some "long int") (some 64) (some 8) none

/-- The node of `struct T { long a; int *p; }`: `p` lies 64 bits in, which GCC
records as `DECL_FIELD_OFFSET` 0 and `DECL_FIELD_BIT_OFFSET` 64. -/
def struct_T_a_p : type_node :=
  struct_node "T" [field_at "a" long_type 0 0, field_at "p" (pointer_to int_type) 0 64]

/-- The node of `struct T { int x; int v[3]; }`. -/
def struct_T_x_v : type_node :=
  struct_node "T" [field_at "x" int_type 0 0, field_at "v" (array_of int_type 4 3) 0 32]

/-- The field `int a[0];`, a zero-length array: no elements, of 4 bytes each. -/
def field_a_zero : field_decl := field_at "a" (array_of int_type 4 0) 0 32

/-- The sentence of the specification on the element count of an array field of
`n` elements of `e` bytes each: the count recorded is the number of elements
exactly when the element size is 1 byte. -/
def count_exact_iff_byte_elements (field : field_decl) (n e : Nat) : Prop :=
  ∀ r, classify_field field = .ok r → (r.num_elem = some n ↔ e = 1)

/-- A text whose last line is not the closing line: it ends with a character
other than `]` followed by the newline. -/
def ends_open (t : String) : Prop := ∃ y c, c ≠ ']' ∧ t.data = y ++ [c, '\n']

/-- The node of `struct T { int x; double d[2]; int y; }`, whose second field is
an array of a floating-point type. -/
def struct_T_x_d_y : type_node :=
  struct_node "T" [field_at "x" int_type 0 0, field_at "d" (array_of double_type 8 2) 0 64,
    field_at "y" int_type 16 64]

/-- Number of newline characters of a text, its number of lines when it ends
with one. -/
def line_count (s : String) : Nat := s.data.count '\n'

/-- A text without a newline, as every identifier is. -/
def no_newline (s : String) : Prop := line_count s = 0

/-- Lines put one after the other. -/
def concat_lines : List String → String
  | [] => ""
  | line :: rest => line ++ concat_lines rest

/-! ## Start-up -/

/-- One plugin argument `-fplugin-arg-<name>-<key>[=<value>]` as GCC hands it
over: the key and the value, `none` (`NULL`) when the option has no `=`. -/
structure plugin_argument where
  key : String
  value : Option String
  deriving DecidableEq

/-- The fields of `struct plugin_name_args` that `plugin_init` reads; `argc`
is the length of `argv`. -/
structure plugin_name_args where
  base_name : String
  argv : List plugin_argument

/-- Events a plugin can register for. -/
inductive plugin_event where
  | PLUGIN_FINISH_TYPE
  | PLUGIN_FINISH_DECL
  | PLUGIN_FINISH_UNIT
  | PLUGIN_FINISH
  deriving DecidableEq

/-- One `register_callback` call: plugin name, event and callback. -/
structure registration where
  plugin_name : String
  event : plugin_event
  callback : plugin_state → type_node → outcome

/-- The process around `plugin_init`: the globals `target_struct` and
`output_file` (`none` for `NULL`, else the path the stream was opened on), the
files created or truncated by `fopen (..., "w")`, the callbacks registered with
the host, and the text written to `stderr`. -/
structure host_state where
  target_struct : Option String
  output_file : Option String
  truncated : List String
  callbacks : List registration
  stderr : String

/-- How `plugin_init` ends: it returns a value, calls `exit` with a status, or
crashes in `xstrdup (NULL)`. -/
inductive init_outcome where
  | returned (value : Int)
  | exited (status : Nat)
  | crashed
  deriving DecidableEq

/-- Value of `EXIT_FAILURE` in stdlib.h. -/
def EXIT_FAILURE : Nat := 1

/-- The loop of lines 208-215: the values of `output` and `target_struct` after
it, and whether it ran to its end (`false`: `xstrdup` was handed `NULL`). -/
def scan_arguments : List plugin_argument → Option String → Option String →
    Option String × Option String × Bool
  | [], output, target_struct => (output, target_struct, true)
  | arg :: rest, output, target_struct =>
    let output := if strcmp arg.key "output" = 0 then arg.value else output
    if strcmp arg.key "struct" = 0 then
      match arg.value with
      | none => (output, target_struct, false)
      | some value => scan_arguments rest output (some value)
    else scan_arguments rest output target_struct

/-- Function `plugin_init`. `fopen_error path` is `none` when
`fopen (path, "w")` succeeds and else the text `perror` prints for it. -/
def plugin_init (fopen_error : String → Option String) (plugin_info : plugin_name_args)
    (st : host_state) : init_outcome × host_state :=
  match scan_arguments plugin_info.argv none st.target_struct with
  | (_, target_struct, false) => (.crashed, { st with target_struct := target_struct })
  | (none, target_struct, true) =>
    (.exited EXIT_FAILURE,
      { st with
        target_struct := target_struct
        stderr := st.stderr ++ "structlayout plugin: missing parameter: -fplugin-arg-struct_layout-output=<output>\n" })
  | (some _, none, true) =>
    (.exited EXIT_FAILURE,
      { st with
        target_struct := none
        stderr := st.stderr ++ "structlayout plugin: missing parameter: -fplugin-arg-struct_layout-struct=<struct>\n" })
  | (some output, some target_struct, true) =>
    match fopen_error output with
    | some message =>
      (.exited EXIT_FAILURE,
        { st with
          target_struct := some target_struct
          stderr := st.stderr ++ output ++ ": " ++ message ++ "\n" })
    | none =>
      (.returned 0,
        { st with
          target_struct := some target_struct
          output_file := some output
          truncated := st.truncated ++ [output]
          callbacks := st.callbacks ++ [⟨plugin_info.base_name, .PLUGIN_FINISH_TYPE,
            plugin_finish_type⟩] })

/-- The process before `plugin_init`: both globals `NULL`, nothing registered. -/
def host_start : host_state :=
  { target_struct := none, output_file := none, truncated := [], callbacks := [], stderr := "" }

/-- The arguments of a run with `-fplugin-arg-struct_layout-struct=T` alone. -/
def args_struct_only : plugin_name_args :=
  { base_name := "struct_layout", argv := [⟨"struct", some "T"⟩] }

/-- The arguments of a run with both options. -/
def args_both : plugin_name_args :=
  { base_name := "struct_layout", argv := [⟨"output", some "layout.py"⟩, ⟨"struct", some "T"⟩] }

/-! ## Runs of the host -/

/-- One complete block of the output: the header line of `name`, the record
lines of `fields`, the closing line. -/
def record_block (name : String) (fields : List field_decl) : String :=
  name ++ " = [\n" ++ field_lines fields ++ "]\n"

/-- A run of the host: the events are delivered one after the other to the
callback, and an abort ends the run with the state it was reached in. -/
def run_events : plugin_state → List type_node → outcome
  | st, [] => returned st
  | st, type :: rest =>
    match plugin_finish_type st type with
    | aborted e st1 => aborted e st1
    | returned st1 => run_events st1 rest

/-- A text made of complete blocks of `name` only, one after the other. -/
def whole_records (name : String) (text : String) : Prop :=
  ∃ blocks : List (List field_decl),
    (∀ fields ∈ blocks, ∀ f ∈ fields, ∃ r, classify_field f = .ok r)
    ∧ text = concat_lines (blocks.map (record_block name))

/-- The classifier as section 4.2 of the specification words it, an if/else:
the name is read first; an array type makes the class `Array`, with the array's
total size, its byte size as count, and an element type that must be of an
allowed inner kind; else a pointer type makes the class `Pointer`, with a target
type that must be of an allowed inner kind; else the class stays `Scalar` and
the type is the declared one. The name of the type reached and the offset
follow. The reads that can fail are kept in the order of the code. -/
def classify_field_spec (field : field_decl) : Except failure field_record :=
  if field.code ≠ FIELD_DECL then .error .assert_field_decl
  else
    match field.decl_name with
    | none => .error .null_decl_name
    | some field_name =>
      if field.type.TREE_CODE = ARRAY_TYPE then
        match field.type.TYPE_SIZE, field.type.TYPE_SIZE_UNIT with
        | some size, some size_unit =>
          match field.type.TREE_TYPE with
          | none => .error .null_inner_type
          | some elem =>
            if is_allowed_inner_type elem then
              match elem.TYPE_SIZE with
              | none => .error .null_type_size
              | some _ =>
                classify_finish field field_name "Array" (TREE_INT_CST_LOW size)
                  (some (TREE_INT_CST_LOW size_unit)) elem
            else .error .assert_inner_type
        | _, _ => .error .null_type_size
      else
        match field.type.TYPE_SIZE with
        | none => .error .null_type_size
        | some size =>
          if POINTER_TYPE_P field.type then
            match field.type.TREE_TYPE with
            | none => .error .null_inner_type
            | some pointee =>
              if is_allowed_inner_type pointee then
                classify_finish field field_name "Pointer" (TREE_INT_CST_LOW size) none pointee
              else .error .assert_inner_type
          else
            classify_finish field field_name "Scalar" (TREE_INT_CST_LOW size) none field.type

/-- The node of `union T { int x; }`, named as the target but not a record. -/
def union_T_x : type_node :=
  { code := UNION_TYPE, fields := [field_at "x" int_type 0 0], type_name := some "T",
    main_variant_name := some "T" }

/-- The node of the forward declaration `struct T;`, without fields. -/
def struct_T_forward : type_node := struct_node "T" []

/-- The type of an unnamed `struct { int a; }`. -/
def unnamed_struct_type : type_tree := .node RECORD_TYPE none (some 32) (some 4) none

/-- The node of `struct T { struct { int a; } s; }`, whose field has an unnamed
type. -/
def struct_T_s : type_node := struct_node "T" [field_at "s" unnamed_struct_type 0 0]

/-- The node of `struct T { double d; }`. -/
def struct_T_d : type_node := struct_node "T" [field_at "d" double_type 0 0]

/-- The field `int *v[2];`, an array of pointers. -/
def field_v_pointers : field_decl := field_at "v" (array_of (pointer_to int_type) 8 2) 0 0

/-- The gates of lines 107-127 are all passed, so that line 132 writes a
header: record kind, fields, a name equal to the target and not yet dumped. -/
def accepts (st : plugin_state) (type : type_node) : Bool :=
  decide (type.code = RECORD_TYPE) && !type.fields.isEmpty
  && (match ORIG_TYPE_NAME type with
      | some name => decide (strcmp name st.target_struct = 0)
          && decide (was_dumped st.dumped_structs name = some false)
      | none => false)

/-- Number of headers written during a run: the events of it that the callback
accepts. -/
def headers_written : plugin_state → List type_node → Nat
  | _, [] => 0
  | st, type :: rest =>
    (if accepts st type then 1 else 0)
    + (match plugin_finish_type st type with
       | aborted _ _ => 0
       | returned st1 => headers_written st1 rest)

/-! ## Chains and files -/

/-- The chain with a fresh node for `name` in the place of its closing `NULL`:
what `add_dumped` leaves when its walk is defined. The `next` of the fresh node
is indeterminate. -/
def name_list.link : name_list → String → name_list
  | .NULL, name => .node name .indeterminate
  | .indeterminate, _ => .indeterminate
  | .node entry next, name => .node entry (next.link name)

/-- The names held by the nodes of a chain, in the order of the walk. -/
def name_list.names : name_list → List String
  | .NULL => []
  | .indeterminate => []
  | .node entry next => entry :: next.names

/-- A text the file may hold while the process is in state `st`: the flushed
text and the part of the pending text that stdio has written out already, so a
text from the flushed one up to all that was written. -/
def file_may_hold (st : plugin_state) (text : String) : Prop :=
  st.flushed.data <+: text.data ∧ text.data <+: (written st).data

instance file_may_hold_decidable (st : plugin_state) (text : String) :
    Decidable (file_may_hold st text) := by
  unfold file_may_hold
  infer_instance

/-- The text the file holds once the process has ended after the outcome `o`:
`exit`, through which the host also ends a run after a failed assertion or a
fault it caught, flushes every open stream. -/
def file_at_exit (o : outcome) : String := written o.state

/-! ## Basic facts -/

theorem strcmp_chars_eq_zero_iff (a b : List Char) : strcmp_chars a b = 0 ↔ a = b := by
  induction a generalizing b with
  | nil => cases b <;> simp [strcmp_chars]
  | cons x xs ih =>
    cases b with
    | nil => simp [strcmp_chars]
    | cons y ys =>
      by_cases h : x = y
      · simp [strcmp_chars, h, ih]
      · simp only [strcmp_chars, h, if_false, List.cons.injEq, false_and, iff_false]
        split <;> decide

theorem strcmp_eq_zero_iff (a b : String) : strcmp a b = 0 ↔ a = b := by
  unfold strcmp
  rw [strcmp_chars_eq_zero_iff]
  constructor
  · exact String.ext
  · intro h; rw [h]

/-- A walk of `was_dumped` that ends in `false` went through a chain closed by
`NULL`: `add_dumped` then links the fresh node at its end, and the name is found
from then on. -/
theorem add_dumped_of_absent (chain : name_list) (name : String)
    (h : was_dumped chain name = some false) :
    add_dumped chain name = some (chain.link name)
    ∧ was_dumped (chain.link name) name = some true
    ∧ (chain.link name).names = chain.names ++ [name] := by
  induction chain with
  | NULL =>
    refine ⟨rfl, ?_, rfl⟩
    simp [name_list.link, was_dumped, strcmp_eq_zero_iff]
  | indeterminate => simp [was_dumped] at h
  | node e next ih =>
    by_cases hn : name = e
    · simp [was_dumped, strcmp_eq_zero_iff, hn] at h
    · have hs : ¬ strcmp name e = 0 := fun hz => hn ((strcmp_eq_zero_iff _ _).1 hz)
      simp only [was_dumped, hs, if_false] at h
      obtain ⟨h1, h2, h3⟩ := ih h
      refine ⟨?_, ?_, ?_⟩
      · simp only [add_dumped, h1, name_list.link]
      · simp only [name_list.link, was_dumped, hs, if_false, h2]
      · simp only [name_list.link, name_list.names, h3, List.cons_append]

theorem fprintf_fprintf (st : plugin_state) (a b : String) :
    fprintf (fprintf st a) b = fprintf st (a ++ b) := by
  simp [fprintf, String.append_assoc]

theorem fprintf_empty (st : plugin_state) : fprintf st "" = st := by
  simp [fprintf]

theorem offset_sum_wraps (b r : Nat) :
    to_int ((to_unsigned (to_int (TREE_INT_CST_LOW b)) + TREE_INT_CST_LOW r) % 2 ^ HOST_BITS)
      = to_int (b + r) := by
  simp only [to_int, to_unsigned, TREE_INT_CST_LOW, HOST_BITS]
  norm_num
  split <;> split <;> split <;> omega

theorem is_allowed_iff (t : type_tree) : is_allowed_inner_type t = true ↔ t.TREE_CODE = INTEGER_TYPE := by
  unfold is_allowed_inner_type
  cases h : t.TREE_CODE <;> simp

theorem not_pointer_of_allowed (t : type_tree) (h : is_allowed_inner_type t = true) :
    POINTER_TYPE_P t = false := by
  rw [is_allowed_iff] at h
  simp [POINTER_TYPE_P, h]

theorem classify_tail_not_pointer (f : field_decl) (fname cls : String) (size : Nat)
    (ne : Option Nat) (t : type_tree) (h : POINTER_TYPE_P t = false) :
    classify_tail f fname cls size ne t = classify_finish f fname cls size ne t := by
  simp [classify_tail, h]

theorem field_offset_value_eq (f : field_decl)
    (h1 : f.field_offset.code = INTEGER_CST) (h2 : f.field_offset.constant = true)
    (h3 : f.field_bit_offset.code = INTEGER_CST) (h4 : f.field_bit_offset.constant = true) :
    field_offset_value f = .ok (to_int (f.field_offset.value + f.field_bit_offset.value)) := by
  unfold field_offset_value
  simp only [h1, h2, h3, h4, and_self, if_true]
  rw [offset_sum_wraps]

theorem classify_finish_ok (f : field_decl) (fname cls : String) (size : Nat) (ne : Option Nat)
    (t : type_tree) (r : field_record) (h : classify_finish f fname cls size ne t = .ok r) :
    ∃ tname offset, t.TYPE_IDENTIFIER = some tname ∧ field_offset_value f = .ok offset ∧
      r = ⟨cls, fname, offset, size, ne, tname⟩ := by
  unfold classify_finish at h
  cases ht : t.TYPE_IDENTIFIER with
  | none => simp [ht] at h
  | some tname =>
    cases ho : field_offset_value f with
    | error e => simp [ht, ho] at h
    | ok offset =>
      simp [ht, ho] at h
      exact ⟨tname, offset, rfl, rfl, h.symm⟩


/-- Inversion of the loop body: a record is computed only for a field of one of
the three supported shapes, and it holds the values read from that shape. -/
theorem classify_field_ok_inv (f : field_decl) (r : field_record)
    (h : classify_field f = .ok r) :
    f.code = FIELD_DECL ∧ ∃ fname offset size, f.decl_name = some fname
      ∧ field_offset_value f = .ok offset ∧ f.type.TYPE_SIZE = some size ∧
      ((f.type.TREE_CODE = ARRAY_TYPE ∧ ∃ su elem tname,
          f.type.TYPE_SIZE_UNIT = some su ∧ f.type.TREE_TYPE = some elem
          ∧ elem.TREE_CODE = INTEGER_TYPE ∧ elem.TYPE_IDENTIFIER = some tname
          ∧ r = ⟨"Array", fname, offset, TREE_INT_CST_LOW size, some (TREE_INT_CST_LOW su), tname⟩)
      ∨ (f.type.TREE_CODE ≠ ARRAY_TYPE ∧ POINTER_TYPE_P f.type = true ∧ ∃ pointee tname,
          f.type.TREE_TYPE = some pointee ∧ pointee.TREE_CODE = INTEGER_TYPE
          ∧ pointee.TYPE_IDENTIFIER = some tname
          ∧ r = ⟨"Pointer", fname, offset, TREE_INT_CST_LOW size, none, tname⟩)
      ∨ (f.type.TREE_CODE ≠ ARRAY_TYPE ∧ POINTER_TYPE_P f.type = false ∧ ∃ tname,
          f.type.TYPE_IDENTIFIER = some tname
          ∧ r = ⟨"Scalar", fname, offset, TREE_INT_CST_LOW size, none, tname⟩)) := by
  unfold classify_field at h
  by_cases hc : f.code = FIELD_DECL
  swap
  · simp [hc] at h
  refine ⟨hc, ?_⟩
  simp only [hc, ne_eq, not_true_eq_false, if_false] at h
  cases hn : f.decl_name with
  | none => simp [hn] at h
  | some fname =>
    simp only [hn] at h
    by_cases ha : f.type.TREE_CODE = ARRAY_TYPE
    · simp only [ha, if_true] at h
      cases hs : f.type.TYPE_SIZE with
      | none => simp [hs] at h
      | some size =>
        cases hu : f.type.TYPE_SIZE_UNIT with
        | none => simp [hs, hu] at h
        | some su =>
          simp only [hs, hu] at h
          cases he : f.type.TREE_TYPE with
          | none => simp [he] at h
          | some elem =>
            simp only [he] at h
            by_cases hal : is_allowed_inner_type elem = true
            · simp only [hal, if_true] at h
              cases hes : elem.TYPE_SIZE with
              | none => simp [hes] at h
              | some es =>
                simp only [hes] at h
                rw [classify_tail_not_pointer _ _ _ _ _ _ (not_pointer_of_allowed _ hal)] at h
                obtain ⟨tname, offset, h1, h2, h3⟩ := classify_finish_ok _ _ _ _ _ _ _ h
                exact ⟨fname, offset, size, rfl, h2, rfl, Or.inl ⟨ha,
                  su, elem, tname, rfl, rfl, (is_allowed_iff _).1 hal, h1, h3⟩⟩
            · simp [hal] at h
    · simp only [ha, if_false] at h
      cases hs : f.type.TYPE_SIZE with
      | none => simp [hs] at h
      | some size =>
        simp only [hs] at h
        cases hp : POINTER_TYPE_P f.type with
        | false =>
          rw [classify_tail_not_pointer _ _ _ _ _ _ hp] at h
          obtain ⟨tname, offset, h1, h2, h3⟩ := classify_finish_ok _ _ _ _ _ _ _ h
          exact ⟨fname, offset, size, rfl, h2, rfl, Or.inr (Or.inr ⟨ha, rfl, tname, h1, h3⟩)⟩
        | true =>
          unfold classify_tail at h
          simp only [hp, if_true] at h
          cases he : f.type.TREE_TYPE with
          | none => simp [he] at h
          | some pointee =>
            simp only [he] at h
            by_cases hal : is_allowed_inner_type pointee = true
            · simp only [hal, if_true] at h
              obtain ⟨tname, offset, h1, h2, h3⟩ := classify_finish_ok _ _ _ _ _ _ _ h
              exact ⟨fname, offset, size, rfl, h2, rfl, Or.inr (Or.inl ⟨ha, rfl,
                pointee, tname, rfl, (is_allowed_iff _).1 hal, h1, h3⟩)⟩
            · simp [hal] at h

theorem classify_scalar (f : field_decl) (fname tname : String) (size : Nat) (offset : Int)
    (hc : f.code = FIELD_DECL) (hn : f.decl_name = some fname)
    (ha : f.type.TREE_CODE ≠ ARRAY_TYPE) (hp : POINTER_TYPE_P f.type = false)
    (hs : f.type.TYPE_SIZE = some size) (ht : f.type.TYPE_IDENTIFIER = some tname)
    (ho : field_offset_value f = .ok offset) :
    classify_field f = .ok ⟨"Scalar", fname, offset, TREE_INT_CST_LOW size, none, tname⟩ := by
  simp [classify_field, hc, hn, ha, hs, classify_tail, hp, classify_finish, ht, ho]

theorem classify_pointer (f : field_decl) (fname tname : String) (size : Nat) (offset : Int)
    (pointee : type_tree)
    (hc : f.code = FIELD_DECL) (hn : f.decl_name = some fname)
    (ha : f.type.TREE_CODE ≠ ARRAY_TYPE) (hp : POINTER_TYPE_P f.type = true)
    (hs : f.type.TYPE_SIZE = some size) (he : f.type.TREE_TYPE = some pointee)
    (hi : pointee.TREE_CODE = INTEGER_TYPE) (ht : pointee.TYPE_IDENTIFIER = some tname)
    (ho : field_offset_value f = .ok offset) :
    classify_field f = .ok ⟨"Pointer", fname, offset, TREE_INT_CST_LOW size, none, tname⟩ := by
  have hal := (is_allowed_iff pointee).2 hi
  simp [classify_field, hc, hn, ha, hs, classify_tail, hp, he, hal, classify_finish, ht, ho]

theorem classify_array (f : field_decl) (fname tname : String) (size su es : Nat) (offset : Int)
    (elem : type_tree)
    (hc : f.code = FIELD_DECL) (hn : f.decl_name = some fname)
    (ha : f.type.TREE_CODE = ARRAY_TYPE)
    (hs : f.type.TYPE_SIZE = some size) (hu : f.type.TYPE_SIZE_UNIT = some su)
    (he : f.type.TREE_TYPE = some elem)
    (hi : elem.TREE_CODE = INTEGER_TYPE) (hes : elem.TYPE_SIZE = some es)
    (ht : elem.TYPE_IDENTIFIER = some tname)
    (ho : field_offset_value f = .ok offset) :
    classify_field f = .ok ⟨"Array", fname, offset, TREE_INT_CST_LOW size,
      some (TREE_INT_CST_LOW su), tname⟩ := by
  have hal := (is_allowed_iff elem).2 hi
  have hnp := not_pointer_of_allowed elem hal
  simp [classify_field, hc, hn, ha, hs, hu, he, hal, hes, classify_tail, hnp, classify_finish,
    ht, ho]

theorem supported_field_classifies (f : field_decl) (h : supported_field f = true) :
    ∃ r, classify_field f = .ok r := by
  simp only [supported_field, Bool.and_eq_true, decide_eq_true_eq, Option.isSome_iff_exists] at h
  obtain ⟨⟨⟨⟨⟨⟨⟨hc, fname, hn⟩, h1⟩, h2⟩, h3⟩, h4⟩, size, hs⟩, hshape⟩ := h
  have ho := field_offset_value_eq f h1 h2 h3 h4
  by_cases ha : f.type.TREE_CODE = ARRAY_TYPE
  · simp only [ha, if_true, Bool.and_eq_true, Option.isSome_iff_exists] at hshape
    obtain ⟨⟨su, hu⟩, hel⟩ := hshape
    cases he : f.type.TREE_TYPE with
    | none => simp [he] at hel
    | some elem =>
      simp only [he, Bool.and_eq_true, decide_eq_true_eq, Option.isSome_iff_exists] at hel
      obtain ⟨⟨hi, es, hes⟩, tname, ht⟩ := hel
      exact ⟨_, classify_array f fname tname size su es _ elem hc hn ha hs hu he hi hes ht ho⟩
  · simp only [ha, if_false] at hshape
    cases hp : POINTER_TYPE_P f.type with
    | true =>
      simp only [hp, if_true] at hshape
      cases he : f.type.TREE_TYPE with
      | none => simp [he] at hshape
      | some pointee =>
        simp only [he, Bool.and_eq_true, decide_eq_true_eq, Option.isSome_iff_exists] at hshape
        obtain ⟨hi, tname, ht⟩ := hshape
        exact ⟨_, classify_pointer f fname tname size _ pointee hc hn ha hp hs he hi ht ho⟩
    | false =>
      simp only [hp, Bool.false_eq_true, if_false, Option.isSome_iff_exists] at hshape
      obtain ⟨tname, ht⟩ := hshape
      exact ⟨_, classify_scalar f fname tname size _ hc hn ha hp hs ht ho⟩

theorem print_field_scalar (st : plugin_state) (fname tname : String) (offset : Int) (size : Nat) :
    print_field st ⟨"Scalar", fname, offset, size, none, tname⟩
      = returned (fprintf st (record_text ⟨"Scalar", fname, offset, size, none, tname⟩)) := by
  have h1 : ¬ strcmp "Scalar" "Array" = 0 := by decide
  have h2 : strcmp "Scalar" "Scalar" = 0 := by decide
  simp only [print_field, h1, h2, if_false, or_true, if_true, fprintf_fprintf, record_text,
    String.append_assoc]

theorem print_field_pointer (st : plugin_state) (fname tname : String) (offset : Int) (size : Nat) :
    print_field st ⟨"Pointer", fname, offset, size, none, tname⟩
      = returned (fprintf st (record_text ⟨"Pointer", fname, offset, size, none, tname⟩)) := by
  have h1 : ¬ strcmp "Pointer" "Array" = 0 := by decide
  have h2 : strcmp "Pointer" "Pointer" = 0 := by decide
  simp only [print_field, h1, h2, if_false, true_or, if_true, fprintf_fprintf, record_text,
    String.append_assoc]

theorem print_field_array (st : plugin_state) (fname tname : String) (offset : Int)
    (size ne : Nat) :
    print_field st ⟨"Array", fname, offset, size, some ne, tname⟩
      = returned (fprintf st (record_text ⟨"Array", fname, offset, size, some ne, tname⟩)) := by
  have h1 : strcmp "Array" "Array" = 0 := by decide
  simp only [print_field, h1, if_true, fprintf_fprintf, record_text, String.append_assoc]

theorem print_field_of_classify (st : plugin_state) (f : field_decl) (r : field_record)
    (h : classify_field f = .ok r) :
    print_field st r = returned (fprintf st (record_text r)) := by
  obtain ⟨_, fname, offset, size, _, _, _, hshape⟩ := classify_field_ok_inv f r h
  rcases hshape with ⟨_, su, elem, tname, _, _, _, _, hr⟩ | ⟨_, _, p, tname, _, _, _, hr⟩
    | ⟨_, _, tname, _, hr⟩
  · rw [hr]; exact print_field_array st fname tname offset _ _
  · rw [hr]; exact print_field_pointer st fname tname offset _
  · rw [hr]; exact print_field_scalar st fname tname offset _

theorem dump_fields_ok (st : plugin_state) (fields : List field_decl)
    (h : ∀ f ∈ fields, ∃ r, classify_field f = .ok r) :
    dump_fields st fields = returned (fprintf st (field_lines fields)) := by
  induction fields generalizing st with
  | nil => simp [dump_fields, field_lines, fprintf_empty]
  | cons f rest ih =>
    obtain ⟨r, hr⟩ := h f (List.mem_cons_self f rest)
    have hrest : ∀ g ∈ rest, ∃ r, classify_field g = .ok r :=
      fun g hg => h g (List.mem_cons_of_mem f hg)
    simp only [dump_fields, hr, print_field_of_classify st f r hr, ih _ hrest, fprintf_fprintf,
      field_lines, field_line]

theorem dump_fields_abort (st : plugin_state) (pre post : List field_decl) (bad : field_decl)
    (e : failure) (hpre : ∀ f ∈ pre, ∃ r, classify_field f = .ok r)
    (hbad : classify_field bad = .error e) :
    dump_fields st (pre ++ bad :: post) = aborted e (fprintf st (field_lines pre)) := by
  induction pre generalizing st with
  | nil => simp [dump_fields, hbad, field_lines, fprintf_empty]
  | cons f rest ih =>
    obtain ⟨r, hr⟩ := hpre f (List.mem_cons_self f rest)
    have hrest : ∀ g ∈ rest, ∃ r, classify_field g = .ok r :=
      fun g hg => hpre g (List.mem_cons_of_mem f hg)
    simp only [List.cons_append, dump_fields, hr, print_field_of_classify st f r hr,
      List.append_eq, ih _ hrest, fprintf_fprintf, field_lines, field_line]

/-- The run of the callback on a node it accepts: the name is linked to the
registry, the header is written, and the field loop decides the rest. -/
theorem plugin_finish_type_accept (st : plugin_state) (type : type_node)
    (hcode : type.code = RECORD_TYPE) (hfields : type.fields ≠ [])
    (hname : ORIG_TYPE_NAME type = some st.target_struct)
    (hnew : was_dumped st.dumped_structs st.target_struct = some false) :
    plugin_finish_type st type =
      match dump_fields (fprintf { st with dumped_structs := st.dumped_structs.link st.target_struct }
          (st.target_struct ++ " = [\n")) type.fields with
      | aborted e st3 => aborted e st3
      | returned st3 => returned (fflush (fprintf st3 "]\n")) := by
  have h1 : ¬ (type.code ≠ RECORD_TYPE ∨ type.fields.isEmpty = true) := by
    simp [hcode, List.isEmpty_iff, hfields]
  have h2 : strcmp st.target_struct st.target_struct = 0 := (strcmp_eq_zero_iff _ _).2 rfl
  have h3 := (add_dumped_of_absent _ _ hnew).1
  unfold plugin_finish_type
  rw [if_neg h1, hname]
  simp only [h2, ne_eq, not_true_eq_false, if_false, hnew, h3]

/-- The run of the callback on an accepted node all of whose fields classify:
it returns with one complete block flushed. -/
theorem plugin_finish_type_block (st : plugin_state) (type : type_node)
    (hcode : type.code = RECORD_TYPE) (hfields : type.fields ≠ [])
    (hname : ORIG_TYPE_NAME type = some st.target_struct)
    (hnew : was_dumped st.dumped_structs st.target_struct = some false)
    (hok : ∀ f ∈ type.fields, ∃ r, classify_field f = .ok r) :
    plugin_finish_type st type = returned
      { target_struct := st.target_struct
        dumped_structs := st.dumped_structs.link st.target_struct
        pending := ""
        flushed := st.flushed ++ (st.pending
          ++ (st.target_struct ++ " = [\n" ++ field_lines type.fields ++ "]\n")) } := by
  rw [plugin_finish_type_accept st type hcode hfields hname hnew, dump_fields_ok _ _ hok]
  simp [fprintf, fflush, String.append_assoc]

theorem to_int_low (n : Nat) : to_int (TREE_INT_CST_LOW n) = to_int n := by
  simp only [to_int, TREE_INT_CST_LOW, HOST_BITS]
  norm_num

theorem printf_d_size_low (n : Nat) :
    printf_d_size (TREE_INT_CST_LOW n) = toString (to_int n) := by
  simp [printf_d_size, printf_d, to_int_low]

theorem written_fprintf (st : plugin_state) (s : String) :
    written (fprintf st s) = written st ++ s := by
  simp [written, fprintf, String.append_assoc]

theorem written_fflush (st : plugin_state) : written (fflush st) = written st := by
  simp [written, fflush]

theorem field_lines_append (a b : List field_decl) :
    field_lines (a ++ b) = field_lines a ++ field_lines b := by
  induction a with
  | nil => simp [field_lines]
  | cons f rest ih => simp [field_lines, ih, String.append_assoc]

theorem dump_fields_append (st : plugin_state) (pre rest : List field_decl)
    (hpre : ∀ f ∈ pre, ∃ r, classify_field f = .ok r) :
    dump_fields st (pre ++ rest) = dump_fields (fprintf st (field_lines pre)) rest := by
  induction pre generalizing st with
  | nil => simp [field_lines, fprintf_empty]
  | cons f more ih =>
    obtain ⟨r, hr⟩ := hpre f (List.mem_cons_self f more)
    have hmore : ∀ g ∈ more, ∃ r, classify_field g = .ok r :=
      fun g hg => hpre g (List.mem_cons_of_mem f hg)
    simp only [List.cons_append, dump_fields, hr, print_field_of_classify st f r hr,
      List.append_eq, ih _ hmore, fprintf_fprintf, field_lines, field_line]

theorem print_field_state (st : plugin_state) (r : field_record) :
    ∃ more, (print_field st r).state = fprintf st more := by
  unfold print_field
  split
  · split
    · exact ⟨_, rfl⟩
    · exact ⟨_, by simp only [outcome.state, fprintf_fprintf]; rfl⟩
  · split
    · exact ⟨_, by simp only [outcome.state, fprintf_fprintf]; rfl⟩
    · exact ⟨_, rfl⟩

theorem dump_fields_state (st : plugin_state) (fields : List field_decl) :
    ∃ more, (dump_fields st fields).state = fprintf st more := by
  induction fields generalizing st with
  | nil => exact ⟨"", by simp [dump_fields, outcome.state, fprintf_empty]⟩
  | cons f rest ih =>
    cases hc : classify_field f with
    | error e => exact ⟨"", by simp [dump_fields, hc, outcome.state, fprintf_empty]⟩
    | ok r =>
      obtain ⟨m1, h1⟩ := print_field_state st r
      cases hp : print_field st r with
      | aborted e st1 =>
        rw [hp] at h1
        exact ⟨m1, by simp only [dump_fields, hc, hp]; exact h1⟩
      | returned st1 =>
        rw [hp] at h1
        simp only [outcome.state] at h1
        obtain ⟨m2, h2⟩ := ih st1
        exact ⟨m1 ++ m2, by simp only [dump_fields, hc, hp, h2]; rw [h1, fprintf_fprintf]⟩

/-- On an accepted node whose first fields `done` all classify, whatever follows
them, the text written by the call starts with the header and their lines. -/
theorem plugin_finish_type_written (st : plugin_state) (type : type_node)
    (done rest : List field_decl)
    (hcode : type.code = RECORD_TYPE) (hfields : type.fields = done ++ rest)
    (hne : type.fields ≠ [])
    (hname : ORIG_TYPE_NAME type = some st.target_struct)
    (hnew : was_dumped st.dumped_structs st.target_struct = some false)
    (hok : ∀ f ∈ done, ∃ r, classify_field f = .ok r) :
    ∃ more, written (plugin_finish_type st type).state
      = written st ++ (st.target_struct ++ " = [\n" ++ field_lines done ++ more) := by
  rw [plugin_finish_type_accept st type hcode hne hname hnew, hfields,
    dump_fields_append _ _ _ hok]
  obtain ⟨more, hmore⟩ := dump_fields_state
    (fprintf (fprintf { st with dumped_structs := st.dumped_structs.link st.target_struct }
      (st.target_struct ++ " = [\n")) (field_lines done)) rest
  cases hd : dump_fields
    (fprintf (fprintf { st with dumped_structs := st.dumped_structs.link st.target_struct }
      (st.target_struct ++ " = [\n")) (field_lines done)) rest with
  | aborted e st3 =>
    rw [hd] at hmore
    simp only [outcome.state] at hmore
    refine ⟨more, ?_⟩
    simp only [outcome.state, hmore, written_fprintf, String.append_assoc]
    simp [written]
  | returned st3 =>
    rw [hd] at hmore
    simp only [outcome.state] at hmore
    refine ⟨more ++ "]\n", ?_⟩
    simp only [outcome.state, hmore, written_fflush, written_fprintf, String.append_assoc]
    simp [written]

/-! ## Offsets -/

/-- C1 (evaluation at the failing input). For `struct T { char a[16]; int x; }`
with target `T`, the field `x` has byte offset 16 and bit remainder 0; the
offset computed for it is 16, the plain sum of the two constants, and the record
written is `Scalar('x', 16, 32, 'int')`, not offset `16 * 8 = 128`. -/
theorem offset_is_plain_sum_at_T :
    field_offset_value (field_at "x" int_type 16 0) = .ok 16
    ∧ plugin_finish_type (start_state "T") struct_T_a16_x = returned
        { target_struct := "T", dumped_structs := .node "T" .indeterminate, pending := "",
          flushed := "T = [\n\tArray('a', 0, 128, 16, 'char'),\n\tScalar('x', 16, 32, 'int'),\n]\n" }
    ∧ (16 : Int) ≠ 16 * 8 := by
  refine ⟨rfl, by decide, by decide⟩

/-! ## The gates of the callback -/

/-- C2. Idempotent dedup: from a state with an empty registry, two non-empty
aggregates that both resolve to the target name and have only supported fields
are delivered one after the other. The first call returns with exactly one
block written after the earlier text and the registry holding just the name;
the second call returns that very state: it writes nothing and leaves the
registry as it is. -/
theorem dedup_second_visit_is_noop (st : plugin_state) (t1 t2 : type_node)
    (hempty : st.dumped_structs = .NULL)
    (hcode1 : t1.code = RECORD_TYPE) (hfields1 : t1.fields ≠ [])
    (hname1 : ORIG_TYPE_NAME t1 = some st.target_struct)
    (hsup1 : ∀ f ∈ t1.fields, supported_field f = true)
    (_hcode2 : t2.code = RECORD_TYPE) (_hfields2 : t2.fields ≠ [])
    (hname2 : ORIG_TYPE_NAME t2 = some st.target_struct)
    (_hsup2 : ∀ f ∈ t2.fields, supported_field f = true) :
    ∃ s1, plugin_finish_type st t1 = returned s1
      ∧ plugin_finish_type s1 t2 = returned s1
      ∧ s1.dumped_structs = .node st.target_struct .indeterminate
      ∧ written s1 = written st
          ++ (st.target_struct ++ " = [\n" ++ field_lines t1.fields ++ "]\n") := by
  have hnew : was_dumped st.dumped_structs st.target_struct = some false := by
    rw [hempty]; rfl
  have hok : ∀ f ∈ t1.fields, ∃ r, classify_field f = .ok r :=
    fun f hf => supported_field_classifies f (hsup1 f hf)
  refine ⟨_, plugin_finish_type_block st t1 hcode1 hfields1 hname1 hnew hok, ?_, ?_, ?_⟩
  · have hw : was_dumped (st.dumped_structs.link st.target_struct) st.target_struct
        = some true := (add_dumped_of_absent _ _ hnew).2.1
    have hs : strcmp st.target_struct st.target_struct = 0 := (strcmp_eq_zero_iff _ _).2 rfl
    unfold plugin_finish_type
    split
    · rfl
    · simp only [hname2, hs, ne_eq, not_true_eq_false, if_false, hw]
  · simp only [hempty, name_list.link]
  · simp [written, String.append_assoc]

/-- Witness of C2: `struct T { int x; }`, then `struct T { char c; int x; }`. -/
theorem dedup_second_visit_is_noop_witness :
    ∃ s1, plugin_finish_type (start_state "T") struct_T_x = returned s1
      ∧ plugin_finish_type s1 struct_T_c_x = returned s1
      ∧ s1.dumped_structs = .node (start_state "T").target_struct .indeterminate
      ∧ written s1 = written (start_state "T")
          ++ ((start_state "T").target_struct ++ " = [\n" ++ field_lines struct_T_x.fields
            ++ "]\n") :=
  dedup_second_visit_is_noop (start_state "T") struct_T_x struct_T_c_x rfl rfl
    (List.cons_ne_nil _ _) rfl (by decide) rfl (List.cons_ne_nil _ _) rfl (by decide)

/-- C3. Name exclusivity: a node whose resolved name is not the configured
target, byte for byte, makes the callback return the state it was given: no
output, no registry entry, no abort, whatever the fields are. -/
theorem other_name_is_skipped (st : plugin_state) (type : type_node) (name : String)
    (hname : ORIG_TYPE_NAME type = some name) (hne : name ≠ st.target_struct) :
    plugin_finish_type st type = returned st := by
  have hs : strcmp name st.target_struct ≠ 0 := fun h => hne ((strcmp_eq_zero_iff _ _).1 h)
  unfold plugin_finish_type
  split
  · rfl
  · rw [hname]
    exact if_pos hs

/-- Witness of C3: `struct point`, whose first field has an unsupported shape,
under the target `Point`, which differs in letter case only. -/
theorem other_name_is_skipped_witness :
    ORIG_TYPE_NAME struct_point = some "point" ∧ "point" ≠ (start_state "Point").target_struct
      ∧ plugin_finish_type (start_state "Point") struct_point = returned (start_state "Point") :=
  ⟨rfl, by decide, other_name_is_skipped (start_state "Point") struct_point "point" rfl
    (by decide)⟩

/-- C4. Anonymous exclusion: a node whose main variant has no name makes the
callback return the state it was given, for every field list and target. -/
theorem unnamed_is_skipped (st : plugin_state) (type : type_node)
    (hanon : type.main_variant_name = none) :
    plugin_finish_type st type = returned st := by
  unfold plugin_finish_type
  split
  · rfl
  · simp only [ORIG_TYPE_NAME, hanon]

/-- Witness of C4: an unnamed struct with a field of unsupported shape. -/
theorem unnamed_is_skipped_witness :
    struct_unnamed.main_variant_name = none
      ∧ plugin_finish_type (start_state "T") struct_unnamed = returned (start_state "T") :=
  ⟨rfl, unnamed_is_skipped (start_state "T") struct_unnamed rfl⟩

/-! ## The three classes of record -/

theorem record_text_scalar (fname tname : String) (o : Int) (size : Nat) :
    record_text ⟨"Scalar", fname, o, size, none, tname⟩
      = "\tScalar('" ++ fname ++ "', " ++ toString o ++ ", " ++ toString (to_int size) ++ ", '"
        ++ tname ++ "'),\n" := by
  have e1 : "\t" ++ "Scalar" ++ "('" = "\tScalar('" := by decide
  have e2 : "'" ++ "),\n" = "'),\n" := by decide
  simp only [record_text, printf_d_size, printf_d, ← String.append_assoc, e1]
  simp only [String.append_assoc, e2]

theorem record_text_pointer (fname tname : String) (o : Int) (size : Nat) :
    record_text ⟨"Pointer", fname, o, size, none, tname⟩
      = "\tPointer('" ++ fname ++ "', " ++ toString o ++ ", " ++ toString (to_int size) ++ ", '"
        ++ tname ++ "'),\n" := by
  have e1 : "\t" ++ "Pointer" ++ "('" = "\tPointer('" := by decide
  have e2 : "'" ++ "),\n" = "'),\n" := by decide
  simp only [record_text, printf_d_size, printf_d, ← String.append_assoc, e1]
  simp only [String.append_assoc, e2]

theorem record_text_array (fname tname : String) (o : Int) (size ne : Nat) :
    record_text ⟨"Array", fname, o, size, some ne, tname⟩
      = "\tArray('" ++ fname ++ "', " ++ toString o ++ ", " ++ toString (to_int size) ++ ", "
        ++ toString (to_int ne) ++ ", '" ++ tname ++ "'),\n" := by
  have e1 : "\t" ++ "Array" ++ "('" = "\tArray('" := by decide
  have e2 : "'" ++ "),\n" = "'),\n" := by decide
  simp only [record_text, printf_d_size, printf_d, ← String.append_assoc, e1]
  simp only [String.append_assoc, e2]

theorem not_array_of_pointer (t : type_tree) (h : POINTER_TYPE_P t = true) :
    t.TREE_CODE ≠ ARRAY_TYPE := by
  intro ha
  simp [POINTER_TYPE_P, ha] at h

/-- C6. Pointer classification: in an accepted aggregate, a field that follows
supported fields and whose declared type is a pointer (or reference) to an
integer type gets the record of class `Pointer` whose type name is the name of
the target type and whose size is `TYPE_SIZE` of the pointer type itself, the
target's size being read nowhere; its line is written right after the lines of
the fields before it. In particular `struct T { long a; int *p; }`, with `p` at
bit offset 64 and a 64-bit pointer, gives the line `Pointer('p', 64, 64, 'int')`. -/
theorem pointer_record :
    (∀ (st : plugin_state) (type : type_node) (pre post : List field_decl) (f : field_decl)
      (fname tname : String) (psize : Nat) (pointee : type_tree) (o : Int),
      type.code = RECORD_TYPE → ORIG_TYPE_NAME type = some st.target_struct →
      was_dumped st.dumped_structs st.target_struct = some false → type.fields = pre ++ f :: post →
      (∀ g ∈ pre, supported_field g = true) →
      f.code = FIELD_DECL → f.decl_name = some fname → POINTER_TYPE_P f.type = true →
      f.type.TYPE_SIZE = some psize → f.type.TREE_TYPE = some pointee →
      pointee.TREE_CODE = INTEGER_TYPE → pointee.TYPE_IDENTIFIER = some tname →
      field_offset_value f = .ok o →
      classify_field f
        = .ok ⟨"Pointer", fname, o, TREE_INT_CST_LOW psize, none, tname⟩
      ∧ ∃ rest, written (plugin_finish_type st type).state
          = written st ++ (st.target_struct ++ " = [\n" ++ field_lines pre
            ++ ("\tPointer('" ++ fname ++ "', " ++ toString o ++ ", "
              ++ toString (to_int psize) ++ ", '" ++ tname ++ "'),\n") ++ rest))
    ∧ plugin_finish_type (start_state "T") struct_T_a_p = returned
        { target_struct := "T", dumped_structs := .node "T" .indeterminate, pending := "",
          flushed := "T = [\n\tScalar('a', 0, 64, 'long int'),\n\tPointer('p', 64, 64, 'int'),\n]\n" } := by
  refine ⟨?_, by decide⟩
  intro st type pre post f fname tname psize pointee o hcode hname hnew hfields hpre hc hn hp
    hs he hi ht ho
  have hcl := classify_pointer f fname tname psize o pointee hc hn (not_array_of_pointer _ hp)
    hp hs he hi ht ho
  refine ⟨hcl, ?_⟩
  have hok : ∀ g ∈ pre ++ [f], ∃ r, classify_field g = .ok r := by
    intro g hg
    rcases List.mem_append.1 hg with hg | hg
    · exact supported_field_classifies g (hpre g hg)
    · rw [List.mem_singleton] at hg
      exact ⟨_, hg ▸ hcl⟩
  have hfields2 : type.fields = (pre ++ [f]) ++ post := by simp [hfields]
  have hne : type.fields ≠ [] := by simp [hfields]
  obtain ⟨more, hmore⟩ := plugin_finish_type_written st type (pre ++ [f]) post hcode hfields2
    hne hname hnew hok
  refine ⟨more, ?_⟩
  rw [hmore]
  simp only [field_lines_append, field_lines, field_line, hcl, record_text_pointer, to_int_low,
    String.append_assoc, String.append_empty]

/-- Witness of C6: the field `p` of `struct T { long a; int *p; }`. -/
theorem pointer_record_witness :
    classify_field (field_at "p" (pointer_to int_type) 0 64)
      = .ok ⟨"Pointer", "p", 64, TREE_INT_CST_LOW 64, none, "int"⟩
    ∧ ∃ rest, written (plugin_finish_type (start_state "T") struct_T_a_p).state
        = written (start_state "T") ++ ((start_state "T").target_struct ++ " = [\n"
          ++ field_lines [field_at "a" long_type 0 0]
          ++ ("\tPointer('" ++ "p" ++ "', " ++ toString (64 : Int) ++ ", "
            ++ toString (to_int 64) ++ ", '" ++ "int" ++ "'),\n") ++ rest) :=
  pointer_record.1 (start_state "T") struct_T_a_p [field_at "a" long_type 0 0] []
    (field_at "p" (pointer_to int_type) 0 64) "p" "int" 64 int_type 64 rfl rfl (by decide) rfl
    (by decide) rfl rfl rfl rfl rfl rfl rfl rfl

/-- C7 as stated fails: for `int a[0];`, an array of 0 elements of 4 bytes each,
the count recorded is 0, the number of elements, although the element size is
not 1 byte. -/
theorem count_exact_fails_at_zero_length :
    classify_field field_a_zero = .ok ⟨"Array", "a", 32, 0, some 0, "int"⟩
    ∧ int_type.TYPE_SIZE_UNIT = some 4
    ∧ field_a_zero.type.TYPE_SIZE_UNIT = some (0 * 4)
    ∧ ¬ count_exact_iff_byte_elements field_a_zero 0 4 := by
  refine ⟨rfl, rfl, rfl, ?_⟩
  intro h
  have h1 := (h ⟨"Array", "a", 32, 0, some 0, "int"⟩ rfl).1 rfl
  exact absurd h1 (by decide)

/-- C7 (amended). Array classification: in an accepted aggregate, a field that
follows supported fields and whose declared type is a complete array of an
integer type gets the record of class `Array` whose size is `TYPE_SIZE` of the
array (its total size in bits, the element's size being used nowhere), whose
type name is the name of the element type and whose count is `TYPE_SIZE_UNIT` of
the array (its total size in bytes); its line is written right after the lines
of the fields before it. Hence for an array of `n` elements of `e` bytes each
the count is `n * e`, which is `n` exactly when `e = 1` or `n = 0`. -/
theorem array_record (st : plugin_state) (type : type_node) (pre post : List field_decl)
    (f : field_decl) (fname tname : String) (size su es : Nat) (elem : type_tree) (o : Int)
    (hcode : type.code = RECORD_TYPE) (hname : ORIG_TYPE_NAME type = some st.target_struct)
    (hnew : was_dumped st.dumped_structs st.target_struct = some false) (hfields : type.fields = pre ++ f :: post)
    (hpre : ∀ g ∈ pre, supported_field g = true)
    (hc : f.code = FIELD_DECL) (hn : f.decl_name = some fname)
    (ha : f.type.TREE_CODE = ARRAY_TYPE)
    (hs : f.type.TYPE_SIZE = some size) (hu : f.type.TYPE_SIZE_UNIT = some su)
    (he : f.type.TREE_TYPE = some elem) (hi : elem.TREE_CODE = INTEGER_TYPE)
    (hes : elem.TYPE_SIZE = some es) (ht : elem.TYPE_IDENTIFIER = some tname)
    (ho : field_offset_value f = .ok o) :
    classify_field f
      = .ok ⟨"Array", fname, o, TREE_INT_CST_LOW size, some (TREE_INT_CST_LOW su), tname⟩
    ∧ (∃ rest, written (plugin_finish_type st type).state
        = written st ++ (st.target_struct ++ " = [\n" ++ field_lines pre
          ++ ("\tArray('" ++ fname ++ "', " ++ toString o ++ ", " ++ toString (to_int size)
            ++ ", " ++ toString (to_int su) ++ ", '" ++ tname ++ "'),\n") ++ rest))
    ∧ (∀ n e : Nat, elem.TYPE_SIZE_UNIT = some e → su = n * e → su < 2 ^ HOST_BITS →
        TREE_INT_CST_LOW su = n * e ∧ (TREE_INT_CST_LOW su = n ↔ (e = 1 ∨ n = 0))) := by
  have hcl := classify_array f fname tname size su es o elem hc hn ha hs hu he hi hes ht ho
  refine ⟨hcl, ?_, ?_⟩
  · have hok : ∀ g ∈ pre ++ [f], ∃ r, classify_field g = .ok r := by
      intro g hg
      rcases List.mem_append.1 hg with hg | hg
      · exact supported_field_classifies g (hpre g hg)
      · rw [List.mem_singleton] at hg
        exact ⟨_, hg ▸ hcl⟩
    have hfields2 : type.fields = (pre ++ [f]) ++ post := by simp [hfields]
    have hne : type.fields ≠ [] := by simp [hfields]
    obtain ⟨more, hmore⟩ := plugin_finish_type_written st type (pre ++ [f]) post hcode hfields2
      hne hname hnew hok
    refine ⟨more, ?_⟩
    rw [hmore]
    simp only [field_lines_append, field_lines, field_line, hcl, record_text_array, to_int_low,
      String.append_assoc, String.append_empty]
  · intro n e _ hsu hlt
    have hlow : TREE_INT_CST_LOW su = su := Nat.mod_eq_of_lt hlt
    rw [hlow, hsu]
    refine ⟨rfl, ?_⟩
    constructor
    · intro h
      rcases Nat.eq_zero_or_pos n with hn0 | hn0
      · exact Or.inr hn0
      · left
        have h2 : n * e = n * 1 := by rw [h, Nat.mul_one]
        exact Nat.eq_of_mul_eq_mul_left hn0 h2
    · rintro (h | h)
      · rw [h, Nat.mul_one]
      · rw [h, Nat.zero_mul]

/-- Witness of C7: the field `v` of `struct T { int x; int v[3]; }`, 96 bits in
all, recorded with count 12, the byte size, not 3. -/
theorem array_record_witness :
    classify_field (field_at "v" (array_of int_type 4 3) 0 32)
      = .ok ⟨"Array", "v", 32, 96, some 12, "int"⟩
    ∧ plugin_finish_type (start_state "T") struct_T_x_v = returned
        { target_struct := "T", dumped_structs := .node "T" .indeterminate, pending := "",
          flushed := "T = [\n\tScalar('x', 0, 32, 'int'),\n\tArray('v', 32, 96, 12, 'int'),\n]\n" }
    ∧ (TREE_INT_CST_LOW 12 = 3 * 4 ∧ (TREE_INT_CST_LOW 12 = 3 ↔ ((4 : Nat) = 1 ∨ (3 : Nat) = 0))) :=
  ⟨(array_record (start_state "T") struct_T_x_v [field_at "x" int_type 0 0] []
      (field_at "v" (array_of int_type 4 3) 0 32) "v" "int" 96 12 32 int_type 32 rfl rfl
      (by decide) rfl (by decide) rfl rfl rfl rfl rfl rfl rfl rfl rfl rfl).1,
    by decide,
    (array_record (start_state "T") struct_T_x_v [field_at "x" int_type 0 0] []
      (field_at "v" (array_of int_type 4 3) 0 32) "v" "int" 96 12 32 int_type 32 rfl rfl
      (by decide) rfl (by decide) rfl rfl rfl rfl rfl rfl rfl rfl rfl rfl).2.2 3 4 rfl rfl
      (by decide)⟩

/-! ## Unsupported shapes -/

theorem unsupported_inner_error (bad : field_decl) (h : unsupported_inner bad = true) :
    ∃ e, classify_field bad = .error e := by
  cases hc : classify_field bad with
  | error e => exact ⟨e, rfl⟩
  | ok r =>
    exfalso
    obtain ⟨_, fname, offset, size, _, _, _, hshape⟩ := classify_field_ok_inv bad r hc
    rcases hshape with ⟨ha, su, elem, tname, _, he, hi, _, _⟩ | ⟨_, hp, p, tname, he, hi, _, _⟩
      | ⟨ha, hp, _⟩
    · simp [unsupported_inner, ha, he, hi] at h
    · simp [unsupported_inner, hp, he, hi] at h
    · simp [unsupported_inner, ha, hp] at h

theorem unsupported_inner_assert (bad : field_decl) (inner : type_tree) (fname : String)
    (size su : Nat)
    (h : unsupported_inner bad = true) (hc : bad.code = FIELD_DECL)
    (hn : bad.decl_name = some fname) (hs : bad.type.TYPE_SIZE = some size)
    (hu : bad.type.TYPE_SIZE_UNIT = some su) (he : bad.type.TREE_TYPE = some inner) :
    classify_field bad = .error .assert_inner_type := by
  simp only [unsupported_inner, he, Bool.and_eq_true, Bool.or_eq_true, decide_eq_true_eq,
    Bool.not_eq_true', decide_eq_false_iff_not] at h
  obtain ⟨hkind, hi⟩ := h
  have hal : is_allowed_inner_type inner = false := by
    cases hx : is_allowed_inner_type inner with
    | false => rfl
    | true => exact absurd ((is_allowed_iff inner).1 hx) hi
  by_cases ha : bad.type.TREE_CODE = ARRAY_TYPE
  · simp [classify_field, hc, hn, ha, hs, hu, he, hal]
  · have hp : POINTER_TYPE_P bad.type = true := by
      rcases hkind with hk | hk
      · exact absurd hk ha
      · exact hk
    simp [classify_field, hc, hn, ha, hs, classify_tail, hp, he, hal]

theorem dump_fields_first_error (post : List field_decl) (bad : field_decl) (e : failure)
    (hbad : classify_field bad = .error e) (pre : List field_decl) (st : plugin_state) :
    ∃ why k, k ≤ pre.length ∧ (∀ g ∈ pre.take k, ∃ r, classify_field g = .ok r)
      ∧ dump_fields st (pre ++ bad :: post) = aborted why (fprintf st (field_lines (pre.take k)))
      ∧ ((∀ g ∈ pre, ∃ r, classify_field g = .ok r) → k = pre.length ∧ why = e) := by
  induction pre generalizing st with
  | nil =>
    refine ⟨e, 0, Nat.le_refl _, by simp, ?_, fun _ => ⟨rfl, rfl⟩⟩
    simp [dump_fields, hbad, field_lines, fprintf_empty]
  | cons f rest ih =>
    cases hc : classify_field f with
    | error e1 =>
      refine ⟨e1, 0, Nat.zero_le _, by simp, ?_, ?_⟩
      · simp [dump_fields, hc, field_lines, fprintf_empty]
      · intro hall
        obtain ⟨r, hr⟩ := hall f (List.mem_cons_self f rest)
        rw [hc] at hr
        cases hr
    | ok r =>
      obtain ⟨why, k, hk, hpre, hrun, hall⟩ := ih (fprintf st (record_text r))
      refine ⟨why, k + 1, by simp [hk], ?_, ?_, ?_⟩
      · intro g hg
        rw [List.take_succ_cons, List.mem_cons] at hg
        rcases hg with hg | hg
        · exact ⟨r, hg ▸ hc⟩
        · exact hpre g hg
      · simp only [List.cons_append, dump_fields, hc, print_field_of_classify st f r hc,
          List.append_eq, hrun, List.take_succ_cons, field_lines, field_line, fprintf_fprintf]
      · intro h
        obtain ⟨h1, h2⟩ := hall (fun g hg => h g (List.mem_cons_of_mem f hg))
        exact ⟨by simp [h1], h2⟩

theorem ends_open_append (x t : String) (h : ends_open t) : ends_open (x ++ t) := by
  obtain ⟨y, c, hc, ht⟩ := h
  exact ⟨x.data ++ y, c, hc, by simp [String.data_append, ht]⟩

theorem ends_open_not_closed (t : String) (h : ends_open t) : ¬ ∃ body : String, t = body ++ "]\n" := by
  rintro ⟨body, hb⟩
  obtain ⟨y, c, hc, ht⟩ := h
  rw [hb, String.data_append] at ht
  have h2 : "]\n".data = [']', '\n'] := rfl
  rw [h2] at ht
  have := List.append_inj_right' ht rfl
  simp at this
  exact hc this.symm

theorem ends_open_record_end (a : String) : ends_open (a ++ "),\n") := by
  refine ⟨a.data ++ [')'], ',', by decide, ?_⟩
  rw [String.data_append]
  have h2 : "),\n".data = [')'] ++ [',', '\n'] := rfl
  rw [h2, ← List.append_assoc]

theorem ends_open_record_text (r : field_record) : ends_open (record_text r) := by
  unfold record_text
  exact ends_open_record_end _

theorem ends_open_field_lines (done : List field_decl) (hne : done ≠ [])
    (hok : ∀ g ∈ done, ∃ r, classify_field g = .ok r) : ends_open (field_lines done) := by
  induction done with
  | nil => exact absurd rfl hne
  | cons f rest ih =>
    cases rest with
    | nil =>
      obtain ⟨r, hr⟩ := hok f (List.mem_cons_self f [])
      simp only [field_lines, field_line, hr, String.append_empty]
      exact ends_open_record_text r
    | cons g more =>
      simp only [field_lines]
      exact ends_open_append _ _ (ih (List.cons_ne_nil _ _)
        (fun x hx => hok x (List.mem_cons_of_mem f hx)))

theorem ends_open_header (x name : String) (done : List field_decl)
    (hok : ∀ g ∈ done, ∃ r, classify_field g = .ok r) :
    ends_open (x ++ (name ++ " = [\n" ++ field_lines done)) := by
  apply ends_open_append
  cases done with
  | nil =>
    simp only [field_lines, String.append_empty]
    refine ⟨name.data ++ " = ".data, '[', by decide, ?_⟩
    rw [String.data_append]
    have h2 : " = [\n".data = " = ".data ++ ['[', '\n'] := rfl
    rw [h2, ← List.append_assoc]
  | cons f rest =>
    exact ends_open_append _ _ (ends_open_field_lines _ (List.cons_ne_nil _ _) hok)

/-- C8. Unsupported shape abort: an accepted aggregate with a field `bad` whose
array element type or pointer target type is not an integer type makes the
callback end in an abort, not a return. The text written by then is the header
and the record lines of some of the fields before `bad`, all of them fields that
classify: no line for `bad` or a later field, and the text does not end with the
closing line. When the fields before `bad` are all supported and `bad` itself
has a name and sizes, all their lines are written and the abort is the failed
assertion on the inner type. -/
theorem unsupported_shape_aborts (st : plugin_state) (type : type_node)
    (pre post : List field_decl) (bad : field_decl)
    (hcode : type.code = RECORD_TYPE) (hname : ORIG_TYPE_NAME type = some st.target_struct)
    (hnew : was_dumped st.dumped_structs st.target_struct = some false)
    (hfields : type.fields = pre ++ bad :: post)
    (hbad : unsupported_inner bad = true) :
    ∃ why st1 k, plugin_finish_type st type = aborted why st1
      ∧ k ≤ pre.length ∧ (∀ g ∈ pre.take k, ∃ r, classify_field g = .ok r)
      ∧ written st1 = written st ++ (st.target_struct ++ " = [\n" ++ field_lines (pre.take k))
      ∧ (¬ ∃ body : String, written st1 = body ++ "]\n")
      ∧ ((∀ g ∈ pre, supported_field g = true) → bad.code = FIELD_DECL →
          bad.decl_name.isSome = true → bad.type.TYPE_SIZE.isSome = true →
          bad.type.TYPE_SIZE_UNIT.isSome = true → bad.type.TREE_TYPE.isSome = true →
          k = pre.length ∧ why = .assert_inner_type) := by
  obtain ⟨e, he⟩ := unsupported_inner_error bad hbad
  have hne : type.fields ≠ [] := by simp [hfields]
  obtain ⟨why, k, hk, hpre, hrun, hall⟩ := dump_fields_first_error post bad e he pre
    (fprintf { st with dumped_structs := st.dumped_structs.link st.target_struct }
      (st.target_struct ++ " = [\n"))
  have hw : written (fprintf (fprintf
      { st with dumped_structs := st.dumped_structs.link st.target_struct }
      (st.target_struct ++ " = [\n")) (field_lines (pre.take k)))
      = written st ++ (st.target_struct ++ " = [\n" ++ field_lines (pre.take k)) := by
    simp [written, fprintf, String.append_assoc]
  refine ⟨why, _, k, ?_, hk, hpre, hw, ?_, ?_⟩
  · rw [plugin_finish_type_accept st type hcode hne hname hnew, hfields, hrun]
  · rw [hw]
    exact ends_open_not_closed _ (ends_open_header _ _ _ hpre)
  · intro hsup hc hn hs hu hi
    obtain ⟨h1, h2⟩ := hall (fun g hg => supported_field_classifies g (hsup g hg))
    refine ⟨h1, ?_⟩
    rw [Option.isSome_iff_exists] at hn hs hu hi
    obtain ⟨fname, hn⟩ := hn
    obtain ⟨size, hs⟩ := hs
    obtain ⟨su, hu⟩ := hu
    obtain ⟨inner, hi⟩ := hi
    have h3 := unsupported_inner_assert bad inner fname size su hbad hc hn hs hu hi
    rw [he] at h3
    rw [h2]
    exact Except.error.inj h3

/-- Witness of C8: `struct T { int x; double d[2]; int y; }` aborts on `d` with
only the header and the line of `x` written. -/
theorem unsupported_shape_aborts_witness :
    plugin_finish_type (start_state "T") struct_T_x_d_y = aborted .assert_inner_type
        { target_struct := "T", dumped_structs := .node "T" .indeterminate,
          pending := "T = [\n\tScalar('x', 0, 32, 'int'),\n", flushed := "" }
    ∧ ∃ why st1 k, plugin_finish_type (start_state "T") struct_T_x_d_y = aborted why st1
      ∧ k ≤ [field_at "x" int_type 0 0].length
      ∧ (∀ g ∈ [field_at "x" int_type 0 0].take k, ∃ r, classify_field g = .ok r)
      ∧ written st1 = written (start_state "T") ++ ((start_state "T").target_struct ++ " = [\n"
          ++ field_lines ([field_at "x" int_type 0 0].take k))
      ∧ (¬ ∃ body : String, written st1 = body ++ "]\n")
      ∧ ((∀ g ∈ [field_at "x" int_type 0 0], supported_field g = true) →
          (field_at "d" (array_of double_type 8 2) 0 64).code = FIELD_DECL →
          (field_at "d" (array_of double_type 8 2) 0 64).decl_name.isSome = true →
          (field_at "d" (array_of double_type 8 2) 0 64).type.TYPE_SIZE.isSome = true →
          (field_at "d" (array_of double_type 8 2) 0 64).type.TYPE_SIZE_UNIT.isSome = true →
          (field_at "d" (array_of double_type 8 2) 0 64).type.TREE_TYPE.isSome = true →
          k = [field_at "x" int_type 0 0].length ∧ why = .assert_inner_type) :=
  ⟨by decide, unsupported_shape_aborts (start_state "T") struct_T_x_d_y
    [field_at "x" int_type 0 0] [field_at "y" int_type 16 64]
    (field_at "d" (array_of double_type 8 2) 0 64) rfl rfl (by decide) rfl rfl⟩

/-! ## Shape of a block -/

theorem line_count_append (a b : String) : line_count (a ++ b) = line_count a + line_count b := by
  simp [line_count, String.data_append, List.count_append]

theorem ite_ne_of_ne (p : Prop) [Decidable p] (a b c : Char) (ha : a ≠ c) (hb : b ≠ c) :
    (if p then a else b) ≠ c := by
  split
  · exact ha
  · exact hb

theorem digitChar_ne_newline (k : Nat) : Nat.digitChar k ≠ '\n' := by
  unfold Nat.digitChar
  repeat' (first | decide | apply ite_ne_of_ne)

theorem toDigitsCore_no_newline (fuel n : Nat) (ds : List Char)
    (h : ∀ c ∈ ds, c ≠ '\n') : ∀ c ∈ Nat.toDigitsCore 10 fuel n ds, c ≠ '\n' := by
  induction fuel generalizing n ds with
  | zero => simpa [Nat.toDigitsCore] using h
  | succ fuel ih =>
    have hd : ∀ c ∈ Nat.digitChar (n % 10) :: ds, c ≠ '\n' := by
      intro c hc
      rcases List.mem_cons.1 hc with hc | hc
      · rw [hc]; exact digitChar_ne_newline _
      · exact h c hc
    unfold Nat.toDigitsCore
    simp only []
    split
    · exact hd
    · exact ih _ _ hd

theorem line_count_nat (n : Nat) : line_count (toString n) = 0 := by
  have h : ∀ c ∈ Nat.toDigits 10 n, c ≠ '\n' :=
    toDigitsCore_no_newline _ _ [] (by simp)
  show List.count '\n' (Nat.toDigits 10 n) = 0
  rw [List.count_eq_zero]
  intro hmem
  exact h _ hmem rfl

theorem line_count_int (i : Int) : line_count (toString i) = 0 := by
  cases i with
  | ofNat m => exact line_count_nat m
  | negSucc m =>
    show line_count ("-" ++ toString (Nat.succ m)) = 0
    rw [line_count_append, line_count_nat]
    rfl

theorem field_lines_eq_concat (fields : List field_decl) :
    field_lines fields = concat_lines (fields.map field_line) := by
  induction fields with
  | nil => rfl
  | cons f rest ih => simp [field_lines, concat_lines, ih]

theorem record_text_shape (r : field_record) :
    ∃ tail, record_text r
      = "\t" ++ r.field_class ++ "('" ++ r.field_name ++ "', " ++ tail ++ "),\n" := by
  cases h : r.num_elem with
  | none =>
    exact ⟨printf_d r.offset ++ ", " ++ printf_d_size r.field_size
      ++ (", '" ++ r.field_type_name ++ "'"), by simp only [record_text, h, String.append_assoc]⟩
  | some num_elem =>
    exact ⟨printf_d r.offset ++ ", " ++ printf_d_size r.field_size
      ++ (", " ++ printf_d_size num_elem ++ ", '" ++ r.field_type_name ++ "'"),
      by simp only [record_text, h, String.append_assoc]⟩

theorem field_line_shape (f : field_decl) (h : supported_field f = true) :
    ∃ cls fname tail, f.decl_name = some fname
      ∧ field_line f = "\t" ++ cls ++ "('" ++ fname ++ "', " ++ tail ++ "),\n" := by
  obtain ⟨r, hr⟩ := supported_field_classifies f h
  obtain ⟨tail, ht⟩ := record_text_shape r
  have hname : f.decl_name = some r.field_name := by
    obtain ⟨_, fname, offset, size, hn, _, _, hshape⟩ := classify_field_ok_inv f r hr
    rcases hshape with ⟨_, _, _, _, _, _, _, _, e⟩ | ⟨_, _, _, _, _, _, _, e⟩ | ⟨_, _, _, _, e⟩ <;>
      rw [e] <;> exact hn
  exact ⟨r.field_class, r.field_name, tail, hname, by simp only [field_line, hr, ht]⟩

theorem line_count_record_text (f : field_decl) (r : field_record)
    (hr : classify_field f = .ok r) (h1 : no_newline r.field_name)
    (h2 : no_newline r.field_type_name) : line_count (record_text r) = 1 := by
  unfold no_newline at h1 h2
  obtain ⟨_, fname, offset, size, _, _, _, hshape⟩ := classify_field_ok_inv f r hr
  have c1 : line_count "\tScalar('" = 0 := by decide
  have c2 : line_count "\tPointer('" = 0 := by decide
  have c3 : line_count "\tArray('" = 0 := by decide
  have c4 : line_count "', " = 0 := by decide
  have c5 : line_count ", " = 0 := by decide
  have c6 : line_count ", '" = 0 := by decide
  have c7 : line_count "'),\n" = 1 := by decide
  rcases hshape with ⟨_, _, _, _, _, _, _, _, e⟩ | ⟨_, _, _, _, _, _, _, e⟩ | ⟨_, _, _, _, e⟩
  · rw [e] at h1 h2 ⊢
    simp only [record_text_array, line_count_append, line_count_int, c3, c4, c5, c6, c7]
    simp only at h1 h2
    omega
  · rw [e] at h1 h2 ⊢
    simp only [record_text_pointer, line_count_append, line_count_int, c2, c4, c5, c6, c7]
    simp only at h1 h2
    omega
  · rw [e] at h1 h2 ⊢
    simp only [record_text_scalar, line_count_append, line_count_int, c1, c4, c5, c6, c7]
    simp only at h1 h2
    omega

theorem line_count_field_lines (fields : List field_decl)
    (hok : ∀ f ∈ fields, ∃ r, classify_field f = .ok r)
    (hnames : ∀ f ∈ fields, ∀ r, classify_field f = .ok r →
      no_newline r.field_name ∧ no_newline r.field_type_name) :
    line_count (field_lines fields) = fields.length
      ∧ ∀ line ∈ fields.map field_line, line_count line = 1 := by
  induction fields with
  | nil => exact ⟨rfl, by simp⟩
  | cons f rest ih =>
    obtain ⟨r, hr⟩ := hok f (List.mem_cons_self f rest)
    obtain ⟨n1, n2⟩ := hnames f (List.mem_cons_self f rest) r hr
    have h1 : line_count (field_line f) = 1 := by
      simp only [field_line, hr]
      exact line_count_record_text f r hr n1 n2
    obtain ⟨ih1, ih2⟩ := ih (fun g hg => hok g (List.mem_cons_of_mem f hg))
      (fun g hg => hnames g (List.mem_cons_of_mem f hg))
    refine ⟨?_, ?_⟩
    · simp only [field_lines, line_count_append, h1, ih1, List.length_cons]
      omega
    · intro line hl
      rw [List.map_cons, List.mem_cons] at hl
      rcases hl with hl | hl
      · rw [hl]; exact h1
      · exact ih2 line hl

theorem forall2_field_line (fields : List field_decl)
    (hsup : ∀ f ∈ fields, supported_field f = true) :
    List.Forall₂ (fun f line => ∃ cls fname tail, f.decl_name = some fname
      ∧ line = "\t" ++ cls ++ "('" ++ fname ++ "', " ++ tail ++ "),\n")
      fields (fields.map field_line) := by
  induction fields with
  | nil => exact List.Forall₂.nil
  | cons f rest ih =>
    exact List.Forall₂.cons (field_line_shape f (hsup f (List.mem_cons_self f rest)))
      (ih (fun g hg => hsup g (List.mem_cons_of_mem f hg)))

/-- C9. Record shape and order: for an accepted aggregate with `n` fields, all
supported, the callback returns and the text it wrote is the header line
`N = [`, then `n` record lines, then the closing line `]`. The lines pair off
with the fields in declaration order: the line of a field starts with a tab and
a class and carries that field's name as first component. When the names hold
no newline, each record line is one line and the block has `n + 2` lines. -/
theorem record_block_shape (st : plugin_state) (type : type_node)
    (hcode : type.code = RECORD_TYPE) (hne : type.fields ≠ [])
    (hname : ORIG_TYPE_NAME type = some st.target_struct)
    (hnew : was_dumped st.dumped_structs st.target_struct = some false)
    (hsup : ∀ f ∈ type.fields, supported_field f = true) :
    ∃ s1 lines, plugin_finish_type st type = returned s1
      ∧ lines.length = type.fields.length
      ∧ written s1 = written st ++ (st.target_struct ++ " = [\n" ++ concat_lines lines ++ "]\n")
      ∧ List.Forall₂ (fun f line => ∃ cls fname tail, f.decl_name = some fname
          ∧ line = "\t" ++ cls ++ "('" ++ fname ++ "', " ++ tail ++ "),\n") type.fields lines
      ∧ (no_newline st.target_struct →
          (∀ f ∈ type.fields, ∀ r, classify_field f = .ok r →
            no_newline r.field_name ∧ no_newline r.field_type_name) →
          (∀ line ∈ lines, line_count line = 1)
          ∧ line_count (st.target_struct ++ " = [\n" ++ concat_lines lines ++ "]\n")
              = type.fields.length + 2) := by
  have hok : ∀ f ∈ type.fields, ∃ r, classify_field f = .ok r :=
    fun f hf => supported_field_classifies f (hsup f hf)
  refine ⟨_, type.fields.map field_line,
    plugin_finish_type_block st type hcode hne hname hnew hok, List.length_map _ _, ?_,
    forall2_field_line _ hsup, ?_⟩
  · simp [written, field_lines_eq_concat, String.append_assoc]
  · intro htarget hnames
    obtain ⟨h1, h2⟩ := line_count_field_lines type.fields hok hnames
    refine ⟨h2, ?_⟩
    have c1 : line_count " = [\n" = 1 := by decide
    have c2 : line_count "]\n" = 1 := by decide
    unfold no_newline at htarget
    rw [← field_lines_eq_concat]
    simp only [line_count_append, htarget, c1, c2, h1]
    omega

/-- Witness of C9: `struct T { long a; int *p; }`, two fields, four lines. -/
theorem record_block_shape_witness :
    plugin_finish_type (start_state "T") struct_T_a_p = returned
        { target_struct := "T", dumped_structs := .node "T" .indeterminate, pending := "",
          flushed := "T = [\n\tScalar('a', 0, 64, 'long int'),\n\tPointer('p', 64, 64, 'int'),\n]\n" }
    ∧ ∃ s1 lines, plugin_finish_type (start_state "T") struct_T_a_p = returned s1
      ∧ lines.length = struct_T_a_p.fields.length
      ∧ written s1 = written (start_state "T")
          ++ ((start_state "T").target_struct ++ " = [\n" ++ concat_lines lines ++ "]\n")
      ∧ List.Forall₂ (fun f line => ∃ cls fname tail, f.decl_name = some fname
          ∧ line = "\t" ++ cls ++ "('" ++ fname ++ "', " ++ tail ++ "),\n")
          struct_T_a_p.fields lines
      ∧ (no_newline (start_state "T").target_struct →
          (∀ f ∈ struct_T_a_p.fields, ∀ r, classify_field f = .ok r →
            no_newline r.field_name ∧ no_newline r.field_type_name) →
          (∀ line ∈ lines, line_count line = 1)
          ∧ line_count ((start_state "T").target_struct ++ " = [\n" ++ concat_lines lines
              ++ "]\n") = struct_T_a_p.fields.length + 2) :=
  ⟨by decide, record_block_shape (start_state "T") struct_T_a_p rfl (List.cons_ne_nil _ _) rfl
    (by decide) (by decide)⟩

/-! ## Start-up -/

theorem scan_output_none (args : List plugin_argument) (target : Option String)
    (h : ∀ a ∈ args, a.key ≠ "output") : (scan_arguments args none target).1 = none := by
  induction args generalizing target with
  | nil => rfl
  | cons a rest ih =>
    have hk : ¬ strcmp a.key "output" = 0 :=
      fun hs => h a (List.mem_cons_self a rest) ((strcmp_eq_zero_iff _ _).1 hs)
    have hrest : ∀ b ∈ rest, b.key ≠ "output" := fun b hb => h b (List.mem_cons_of_mem a hb)
    unfold scan_arguments
    simp only [hk, if_false]
    split
    · split
      · rfl
      · exact ih _ hrest
    · exact ih _ hrest

theorem scan_target_none (args : List plugin_argument) (output : Option String)
    (h : ∀ a ∈ args, a.key ≠ "struct") :
    (scan_arguments args output none).2 = (none, true) := by
  induction args generalizing output with
  | nil => rfl
  | cons a rest ih =>
    have hk : ¬ strcmp a.key "struct" = 0 :=
      fun hs => h a (List.mem_cons_self a rest) ((strcmp_eq_zero_iff _ _).1 hs)
    have hrest : ∀ b ∈ rest, b.key ≠ "struct" := fun b hb => h b (List.mem_cons_of_mem a hb)
    unfold scan_arguments
    simp only [hk, if_false]
    exact ih _ hrest

theorem scan_completes (args : List plugin_argument) (output target : Option String)
    (h : ∀ a ∈ args, a.value.isSome = true) :
    (scan_arguments args output target).2.2 = true := by
  induction args generalizing output target with
  | nil => rfl
  | cons a rest ih =>
    have hrest : ∀ b ∈ rest, b.value.isSome = true := fun b hb => h b (List.mem_cons_of_mem a hb)
    obtain ⟨v, hv⟩ := Option.isSome_iff_exists.1 (h a (List.mem_cons_self a rest))
    unfold scan_arguments
    simp only [hv]
    split
    · exact ih _ _ hrest
    · exact ih _ _ hrest

theorem scan_output_some (args : List plugin_argument) (output target : Option String)
    (h : ∀ a ∈ args, a.value.isSome = true)
    (hk : output.isSome = true ∨ ∃ a ∈ args, a.key = "output") :
    (scan_arguments args output target).1.isSome = true := by
  induction args generalizing output target with
  | nil =>
    rcases hk with hk | ⟨a, ha, _⟩
    · exact hk
    · cases ha
  | cons a rest ih =>
    have hrest : ∀ b ∈ rest, b.value.isSome = true := fun b hb => h b (List.mem_cons_of_mem a hb)
    obtain ⟨v, hv⟩ := Option.isSome_iff_exists.1 (h a (List.mem_cons_self a rest))
    have hk2 : (if strcmp a.key "output" = 0 then a.value else output).isSome = true
        ∨ ∃ b ∈ rest, b.key = "output" := by
      by_cases hs : strcmp a.key "output" = 0
      · left; simp [hs, hv]
      · rcases hk with hk | ⟨b, hb, hbk⟩
        · left; simp [hs, hk]
        · rcases List.mem_cons.1 hb with hb | hb
          · rw [hb] at hbk
            exact absurd ((strcmp_eq_zero_iff _ _).2 hbk) hs
          · exact Or.inr ⟨b, hb, hbk⟩
    rw [hv] at hk2
    unfold scan_arguments
    simp only [hv]
    split
    · exact ih _ _ hrest hk2
    · exact ih _ _ hrest hk2

theorem scan_target_some (args : List plugin_argument) (output target : Option String)
    (h : ∀ a ∈ args, a.value.isSome = true)
    (hk : target.isSome = true ∨ ∃ a ∈ args, a.key = "struct") :
    (scan_arguments args output target).2.1.isSome = true := by
  induction args generalizing output target with
  | nil =>
    rcases hk with hk | ⟨a, ha, _⟩
    · exact hk
    · cases ha
  | cons a rest ih =>
    have hrest : ∀ b ∈ rest, b.value.isSome = true := fun b hb => h b (List.mem_cons_of_mem a hb)
    obtain ⟨v, hv⟩ := Option.isSome_iff_exists.1 (h a (List.mem_cons_self a rest))
    unfold scan_arguments
    simp only [hv]
    by_cases hs : strcmp a.key "struct" = 0
    · simp only [hs, if_true]
      exact ih _ _ hrest (Or.inl rfl)
    · simp only [hs, if_false]
      refine ih _ _ hrest ?_
      rcases hk with hk | ⟨b, hb, hbk⟩
      · exact Or.inl hk
      · rcases List.mem_cons.1 hb with hb | hb
        · rw [hb] at hbk
          exact absurd ((strcmp_eq_zero_iff _ _).2 hbk) hs
        · exact Or.inr ⟨b, hb, hbk⟩

/-- C10. Missing configuration: started with `target_struct` still `NULL`, on
an argument list without a key `output` or without a key `struct`, `plugin_init`
does not return: it calls `exit (EXIT_FAILURE)`, a non-zero status (or, when a
`struct` option comes without a value, crashes in `xstrdup`), and by then no
file was opened, created or truncated and no callback registered. When both
keys are present and the file was opened, it returned 0, the file being the one
created and `plugin_finish_type` registered for `PLUGIN_FINISH_TYPE`; and that
is what happens when every option has a value and `fopen` succeeds. -/
theorem missing_option_exits :
    (∀ (fopen_error : String → Option String) (info : plugin_name_args) (st : host_state),
      st.target_struct = none →
      ((∀ a ∈ info.argv, a.key ≠ "output") ∨ (∀ a ∈ info.argv, a.key ≠ "struct")) →
      ((plugin_init fopen_error info st).1 = .exited EXIT_FAILURE
        ∨ (plugin_init fopen_error info st).1 = .crashed)
      ∧ (plugin_init fopen_error info st).2.output_file = st.output_file
      ∧ (plugin_init fopen_error info st).2.truncated = st.truncated
      ∧ (plugin_init fopen_error info st).2.callbacks = st.callbacks
      ∧ ((∀ a ∈ info.argv, a.value.isSome = true) →
          (plugin_init fopen_error info st).1 = .exited EXIT_FAILURE))
    ∧ EXIT_FAILURE ≠ 0
    ∧ (∀ (fopen_error : String → Option String) (info : plugin_name_args) (st : host_state)
        (path : String),
      st.output_file = none →
      (∃ a ∈ info.argv, a.key = "output") → (∃ a ∈ info.argv, a.key = "struct") →
      (plugin_init fopen_error info st).2.output_file = some path →
      (plugin_init fopen_error info st).1 = .returned 0
      ∧ (plugin_init fopen_error info st).2.truncated = st.truncated ++ [path]
      ∧ (plugin_init fopen_error info st).2.callbacks
          = st.callbacks ++ [⟨info.base_name, .PLUGIN_FINISH_TYPE, plugin_finish_type⟩])
    ∧ (∀ (fopen_error : String → Option String) (info : plugin_name_args) (st : host_state),
      (∃ a ∈ info.argv, a.key = "output") → (∃ a ∈ info.argv, a.key = "struct") →
      (∀ a ∈ info.argv, a.value.isSome = true) → (∀ path, fopen_error path = none) →
      (plugin_init fopen_error info st).1 = .returned 0
      ∧ (∃ path, (plugin_init fopen_error info st).2.output_file = some path)
      ∧ (plugin_init fopen_error info st).2.callbacks
          = st.callbacks ++ [⟨info.base_name, .PLUGIN_FINISH_TYPE, plugin_finish_type⟩]) := by
  refine ⟨?_, by decide, ?_, ?_⟩
  · intro fopen_error info st htarget hmiss
    rcases h : scan_arguments info.argv none st.target_struct with ⟨o, t, b⟩
    have ho : (∀ a ∈ info.argv, a.key ≠ "output") → o = none := by
      intro hk
      have := scan_output_none info.argv st.target_struct hk
      rw [h] at this
      exact this
    have ht : (∀ a ∈ info.argv, a.key ≠ "struct") → t = none ∧ b = true := by
      intro hk
      have := scan_target_none info.argv none hk
      rw [htarget] at h
      rw [h] at this
      exact Prod.mk.inj this
    have hb : (∀ a ∈ info.argv, a.value.isSome = true) → b = true := by
      intro hv
      have := scan_completes info.argv none st.target_struct hv
      rw [h] at this
      exact this
    cases b with
    | false =>
      simp only [plugin_init, h]
      refine ⟨Or.inr trivial, trivial, trivial, trivial, fun hv => absurd (hb hv) (by decide)⟩
    | true =>
      cases o with
      | none =>
        simp only [plugin_init, h]
        exact ⟨Or.inl trivial, trivial, trivial, trivial, fun _ => trivial⟩
      | some output =>
        cases t with
        | none =>
          simp only [plugin_init, h]
          exact ⟨Or.inl trivial, trivial, trivial, trivial, fun _ => trivial⟩
        | some target =>
          exfalso
          rcases hmiss with hk | hk
          · exact absurd (ho hk) (by simp)
          · exact absurd (ht hk).1 (by simp)
  · intro fopen_error info st path hnone _ _ hopen
    rcases h : scan_arguments info.argv none st.target_struct with ⟨o, t, b⟩
    cases b with
    | false =>
      simp only [plugin_init, h, hnone] at hopen
      cases hopen
    | true =>
      cases o with
      | none =>
        simp only [plugin_init, h, hnone] at hopen
        cases hopen
      | some output =>
        cases t with
        | none =>
          simp only [plugin_init, h, hnone] at hopen
          cases hopen
        | some target =>
          cases hf : fopen_error output with
          | some message =>
            simp only [plugin_init, h, hf, hnone] at hopen
            cases hopen
          | none =>
            simp only [plugin_init, h, hf] at hopen ⊢
            have hp : output = path := Option.some.inj hopen
            rw [hp]
            exact ⟨trivial, rfl, trivial⟩
  · intro fopen_error info st hko hks hv hf
    rcases h : scan_arguments info.argv none st.target_struct with ⟨o, t, b⟩
    have hb := scan_completes info.argv none st.target_struct hv
    have ho := scan_output_some info.argv none st.target_struct hv (Or.inr hko)
    have ht := scan_target_some info.argv none st.target_struct hv (Or.inr hks)
    rw [h] at hb ho ht
    simp only at hb ho ht
    obtain ⟨output, ho⟩ := Option.isSome_iff_exists.1 ho
    obtain ⟨target, ht⟩ := Option.isSome_iff_exists.1 ht
    subst hb ho ht
    simp only [plugin_init, h, hf output]
    exact ⟨trivial, ⟨output, rfl⟩, trivial⟩

/-- Witness of C10: with the `struct` option alone the run exits with
`EXIT_FAILURE` and touches nothing; with both options it returns 0. -/
theorem missing_option_exits_witness :
    (((plugin_init (fun _ => none) args_struct_only host_start).1 = .exited EXIT_FAILURE
        ∨ (plugin_init (fun _ => none) args_struct_only host_start).1 = .crashed)
      ∧ (plugin_init (fun _ => none) args_struct_only host_start).2.output_file
          = host_start.output_file
      ∧ (plugin_init (fun _ => none) args_struct_only host_start).2.truncated
          = host_start.truncated
      ∧ (plugin_init (fun _ => none) args_struct_only host_start).2.callbacks
          = host_start.callbacks
      ∧ ((∀ a ∈ args_struct_only.argv, a.value.isSome = true) →
          (plugin_init (fun _ => none) args_struct_only host_start).1 = .exited EXIT_FAILURE))
    ∧ ((plugin_init (fun _ => none) args_both host_start).1 = .returned 0
      ∧ (∃ path, (plugin_init (fun _ => none) args_both host_start).2.output_file = some path)
      ∧ (plugin_init (fun _ => none) args_both host_start).2.callbacks
          = host_start.callbacks ++ [⟨args_both.base_name, .PLUGIN_FINISH_TYPE,
              plugin_finish_type⟩]) :=
  ⟨missing_option_exits.1 (fun _ => none) args_struct_only host_start rfl
      (Or.inl (by decide)),
    missing_option_exits.2.2.2 (fun _ => none) args_both host_start
      ⟨⟨"output", some "layout.py"⟩, by decide, rfl⟩ ⟨⟨"struct", some "T"⟩, by decide, rfl⟩
      (by decide) (fun _ => rfl)⟩

/-! ## Outcomes of a call and of a run -/

theorem dump_fields_cases (st : plugin_state) (fields : List field_decl) :
    ((∀ f ∈ fields, ∃ r, classify_field f = .ok r)
      ∧ dump_fields st fields = returned (fprintf st (field_lines fields)))
    ∨ ∃ e k bad, k < fields.length ∧ (∀ g ∈ fields.take k, ∃ r, classify_field g = .ok r)
      ∧ fields[k]? = some bad ∧ classify_field bad = .error e
      ∧ dump_fields st fields = aborted e (fprintf st (field_lines (fields.take k))) := by
  induction fields generalizing st with
  | nil => exact Or.inl ⟨by simp, by simp [dump_fields, field_lines, fprintf_empty]⟩
  | cons f rest ih =>
    cases hc : classify_field f with
    | error e =>
      right
      refine ⟨e, 0, f, by simp, by simp, by simp, hc, ?_⟩
      simp [dump_fields, hc, field_lines, fprintf_empty]
    | ok r =>
      rcases ih (fprintf st (record_text r)) with ⟨hok, hrun⟩ | ⟨e, k, bad, hk, hpre, hget, hbad, hrun⟩
      · left
        refine ⟨?_, ?_⟩
        · intro g hg
          rcases List.mem_cons.1 hg with hg | hg
          · exact ⟨r, hg ▸ hc⟩
          · exact hok g hg
        · simp only [dump_fields, hc, print_field_of_classify st f r hc, hrun, field_lines,
            field_line, fprintf_fprintf]
      · right
        refine ⟨e, k + 1, bad, by simp [hk], ?_, by simpa using hget, hbad, ?_⟩
        · intro g hg
          rw [List.take_succ_cons, List.mem_cons] at hg
          rcases hg with hg | hg
          · exact ⟨r, hg ▸ hc⟩
          · exact hpre g hg
        · simp only [dump_fields, hc, print_field_of_classify st f r hc, hrun,
            List.take_succ_cons, field_lines, field_line, fprintf_fprintf]

theorem plugin_finish_type_cases (st : plugin_state) (type : type_node) :
    plugin_finish_type st type = returned st
    ∨ (type.code = RECORD_TYPE ∧ type.fields ≠ []
        ∧ ORIG_TYPE_NAME type = some st.target_struct
        ∧ was_dumped st.dumped_structs st.target_struct = some false)
    ∨ (was_dumped st.dumped_structs st.target_struct = none
        ∧ plugin_finish_type st type = aborted .indeterminate_next st) := by
  unfold plugin_finish_type
  by_cases h1 : type.code ≠ RECORD_TYPE ∨ type.fields.isEmpty = true
  · left; rw [if_pos h1]
  · rw [if_neg h1]
    cases hn : ORIG_TYPE_NAME type with
    | none => left; rfl
    | some name =>
      by_cases h2 : strcmp name st.target_struct ≠ 0
      · left; simp only [if_pos h2]
      · have hname : name = st.target_struct :=
          (strcmp_eq_zero_iff _ _).1 (not_not.1 h2)
        subst hname
        simp only [not_or, ne_eq, not_not, List.isEmpty_iff] at h1
        cases hw : was_dumped st.dumped_structs st.target_struct with
        | none => right; right; exact ⟨rfl, by simp only [if_neg h2, hw]⟩
        | some found =>
          cases found with
          | true => left; simp only [if_neg h2, hw]
          | false => right; left; exact ⟨h1.1, h1.2, rfl, rfl⟩

theorem plugin_finish_type_accepted (st : plugin_state) (type : type_node)
    (hcode : type.code = RECORD_TYPE) (hfields : type.fields ≠ [])
    (hname : ORIG_TYPE_NAME type = some st.target_struct)
    (hnew : was_dumped st.dumped_structs st.target_struct = some false) :
    ((∀ f ∈ type.fields, ∃ r, classify_field f = .ok r)
      ∧ plugin_finish_type st type = returned
          { target_struct := st.target_struct
            dumped_structs := st.dumped_structs.link st.target_struct
            pending := ""
            flushed := st.flushed ++ (st.pending ++ record_block st.target_struct type.fields) })
    ∨ ∃ e k bad, k < type.fields.length
      ∧ (∀ g ∈ type.fields.take k, ∃ r, classify_field g = .ok r)
      ∧ type.fields[k]? = some bad ∧ classify_field bad = .error e
      ∧ plugin_finish_type st type = aborted e
          { target_struct := st.target_struct
            dumped_structs := st.dumped_structs.link st.target_struct
            pending := st.pending ++ (st.target_struct ++ " = [\n"
              ++ field_lines (type.fields.take k))
            flushed := st.flushed } := by
  rw [plugin_finish_type_accept st type hcode hfields hname hnew]
  rcases dump_fields_cases
    (fprintf { st with dumped_structs := st.dumped_structs.link st.target_struct }
      (st.target_struct ++ " = [\n")) type.fields with
    ⟨hok, hrun⟩ | ⟨e, k, bad, hk, hpre, hget, hbad, hrun⟩
  · left
    refine ⟨hok, ?_⟩
    rw [hrun]
    simp [fprintf, fflush, record_block, String.append_assoc]
  · right
    refine ⟨e, k, bad, hk, hpre, hget, hbad, ?_⟩
    rw [hrun]
    simp [fprintf, String.append_assoc]

theorem plugin_finish_type_noop_of_dumped (st : plugin_state) (type : type_node)
    (h : was_dumped st.dumped_structs st.target_struct = some true) :
    plugin_finish_type st type = returned st := by
  rcases plugin_finish_type_cases st type with h1 | ⟨_, _, _, hnew⟩ | ⟨hnone, _⟩
  · exact h1
  · rw [h] at hnew; cases hnew
  · rw [h] at hnone; cases hnone

theorem run_events_noop_of_dumped (st : plugin_state) (events : List type_node)
    (h : was_dumped st.dumped_structs st.target_struct = some true) :
    run_events st events = returned st := by
  induction events with
  | nil => rfl
  | cons t rest ih =>
    simp only [run_events, plugin_finish_type_noop_of_dumped st t h, ih]

/-! ## The registry and the gates -/

theorem dump_fields_keeps_registry (st : plugin_state) (fields : List field_decl) :
    (dump_fields st fields).state.dumped_structs = st.dumped_structs
    ∧ (dump_fields st fields).state.target_struct = st.target_struct
    ∧ (dump_fields st fields).state.flushed = st.flushed := by
  obtain ⟨more, h⟩ := dump_fields_state st fields
  rw [h]
  exact ⟨rfl, rfl, rfl⟩

/-- C11. Commit before fields: when the callback accepts an aggregate (record
kind, fields, name equal to the target, name not yet in the registry) the field
loop is started on a state whose registry already ends with the name, and the
loop never touches the registry: in the state reached, whether the call
returned or aborted on a field, the registry is the old one with the name
linked at its end, and `was_dumped` finds the name. -/
theorem name_committed_before_fields (st : plugin_state) (type : type_node)
    (hcode : type.code = RECORD_TYPE) (hfields : type.fields ≠ [])
    (hname : ORIG_TYPE_NAME type = some st.target_struct)
    (hnew : was_dumped st.dumped_structs st.target_struct = some false) :
    (∃ st2, st2.dumped_structs = st.dumped_structs.link st.target_struct
      ∧ was_dumped st2.dumped_structs st.target_struct = some true
      ∧ plugin_finish_type st type =
          match dump_fields st2 type.fields with
          | aborted e st3 => aborted e st3
          | returned st3 => returned (fflush (fprintf st3 "]\n")))
    ∧ (plugin_finish_type st type).state.dumped_structs
        = st.dumped_structs.link st.target_struct
    ∧ was_dumped (plugin_finish_type st type).state.dumped_structs st.target_struct
        = some true := by
  have hstate : (plugin_finish_type st type).state.dumped_structs
      = st.dumped_structs.link st.target_struct := by
    rcases plugin_finish_type_accepted st type hcode hfields hname hnew with
      ⟨_, hrun⟩ | ⟨e, k, bad, _, _, _, _, hrun⟩
    · rw [hrun]; rfl
    · rw [hrun]; rfl
  refine ⟨⟨fprintf { st with dumped_structs := st.dumped_structs.link st.target_struct }
      (st.target_struct ++ " = [\n"), rfl, ?_,
      plugin_finish_type_accept st type hcode hfields hname hnew⟩, hstate, ?_⟩
  · exact (add_dumped_of_absent _ _ hnew).2.1
  · rw [hstate]
    exact (add_dumped_of_absent _ _ hnew).2.1

/-- Witness of C11: `struct T { int x; }`, which returns, and
`struct T { int x; double d[2]; int y; }`, which aborts on `d`. -/
theorem name_committed_before_fields_witness :
    ((plugin_finish_type (start_state "T") struct_T_x).state.dumped_structs
        = (start_state "T").dumped_structs.link (start_state "T").target_struct
      ∧ ∃ s, plugin_finish_type (start_state "T") struct_T_x = returned s)
    ∧ ((plugin_finish_type (start_state "T") struct_T_x_d_y).state.dumped_structs
        = (start_state "T").dumped_structs.link (start_state "T").target_struct
      ∧ ∃ e s, plugin_finish_type (start_state "T") struct_T_x_d_y = aborted e s) :=
  ⟨⟨(name_committed_before_fields (start_state "T") struct_T_x rfl (List.cons_ne_nil _ _) rfl
      (by decide)).2.1, _, rfl⟩,
    ⟨(name_committed_before_fields (start_state "T") struct_T_x_d_y rfl (List.cons_ne_nil _ _)
      rfl (by decide)).2.1, _, _, rfl⟩⟩

/-- C12. Precondition filter: a node that is not of record kind, and a record
node without field declarations, make the callback return the state it was
given, whatever the node's name is: nothing written, registry unchanged, no
abort. -/
theorem non_candidate_is_skipped (st : plugin_state) (type : type_node)
    (h : type.code ≠ RECORD_TYPE ∨ type.fields = []) :
    plugin_finish_type st type = returned st := by
  have h1 : type.code ≠ RECORD_TYPE ∨ type.fields.isEmpty = true := by
    rcases h with h | h
    · exact Or.inl h
    · exact Or.inr (by rw [h]; rfl)
  unfold plugin_finish_type
  rw [if_pos h1]

/-- Witness of C12: `union T { int x; }` and the forward declaration
`struct T;`, both named as the target `T`. -/
theorem non_candidate_is_skipped_witness :
    (ORIG_TYPE_NAME union_T_x = some (start_state "T").target_struct
      ∧ plugin_finish_type (start_state "T") union_T_x = returned (start_state "T"))
    ∧ (ORIG_TYPE_NAME struct_T_forward = some (start_state "T").target_struct
      ∧ plugin_finish_type (start_state "T") struct_T_forward = returned (start_state "T")) :=
  ⟨⟨rfl, non_candidate_is_skipped (start_state "T") union_T_x (Or.inl (by decide))⟩,
    ⟨rfl, non_candidate_is_skipped (start_state "T") struct_T_forward (Or.inr rfl)⟩⟩

theorem concat_lines_append (a b : List String) :
    concat_lines (a ++ b) = concat_lines a ++ concat_lines b := by
  induction a with
  | nil => simp [concat_lines]
  | cons x rest ih => simp [concat_lines, ih, String.append_assoc]

theorem whole_records_append_block (name text : String) (fields : List field_decl)
    (h : whole_records name text) (hok : ∀ f ∈ fields, ∃ r, classify_field f = .ok r) :
    whole_records name (text ++ record_block name fields) := by
  obtain ⟨blocks, hall, htext⟩ := h
  refine ⟨blocks ++ [fields], ?_, ?_⟩
  · intro fs hfs
    rcases List.mem_append.1 hfs with hfs | hfs
    · exact hall fs hfs
    · rw [List.mem_singleton] at hfs
      rw [hfs]; exact hok
  · rw [List.map_append, concat_lines_append, htext]
    simp [concat_lines]

theorem whole_records_closed (name text : String) (h : whole_records name text) :
    text = "" ∨ ∃ body : String, text = body ++ "]\n" := by
  obtain ⟨blocks, _, htext⟩ := h
  rcases List.eq_nil_or_concat blocks with hnil | ⟨init, last, hb⟩
  · left
    rw [htext, hnil]
    rfl
  · right
    refine ⟨concat_lines (init.map (record_block name))
      ++ (name ++ " = [\n" ++ field_lines last), ?_⟩
    rw [htext, hb, List.concat_eq_append, List.map_append, concat_lines_append]
    simp [concat_lines, record_block, String.append_assoc]

theorem ends_open_not_whole (name text : String) (h : ends_open text) :
    ¬ whole_records name text := by
  intro hw
  rcases whole_records_closed name text hw with hempty | hclosed
  · obtain ⟨y, c, _, ht⟩ := h
    rw [hempty] at ht
    have h2 : "".data = ([] : List Char) := rfl
    rw [h2] at ht
    simp at ht
  · exact ends_open_not_closed text h hclosed

theorem file_may_hold_of_flushed (st : plugin_state) (text : String)
    (hpending : st.pending = "") (h : file_may_hold st text) : text = st.flushed := by
  obtain ⟨h1, h2⟩ := h
  have hw : (written st).data = st.flushed.data := by
    simp [written, hpending]
  rw [hw] at h2
  exact String.ext (h2.sublist.antisymm h1.sublist)

/-- One call keeps the invariant of the stream, and an abort on a field leaves
an open block written. -/
theorem plugin_finish_type_whole (st : plugin_state) (type : type_node)
    (hpending : st.pending = "") (hwhole : whole_records st.target_struct st.flushed) :
    (plugin_finish_type st type).state.target_struct = st.target_struct
    ∧ whole_records st.target_struct (plugin_finish_type st type).state.flushed
    ∧ (∀ s, plugin_finish_type st type = returned s → s.pending = "")
    ∧ (∀ e s, plugin_finish_type st type = aborted e s →
        s.flushed = st.flushed ∧ (e ≠ .indeterminate_next → ends_open (written s))) := by
  rcases plugin_finish_type_cases st type with
    h | ⟨hcode, hfields, hname, hnew⟩ | ⟨_, habort⟩
  · rw [h]
    refine ⟨rfl, hwhole, ?_, ?_⟩
    · intro s hs
      cases hs
      exact hpending
    · intro e s hs
      cases hs
  · rcases plugin_finish_type_accepted st type hcode hfields hname hnew with
      ⟨hok, hrun⟩ | ⟨e, k, bad, _, hpre, _, _, hrun⟩
    · rw [hrun]
      refine ⟨rfl, ?_, ?_, ?_⟩
      · simp only [outcome.state, hpending, String.empty_append]
        exact whole_records_append_block _ _ _ hwhole hok
      · intro s hs
        cases hs
        rfl
      · intro e s hs
        cases hs
    · rw [hrun]
      refine ⟨rfl, hwhole, ?_, ?_⟩
      · intro s hs
        cases hs
      · intro e1 s hs
        cases hs
        refine ⟨rfl, fun _ => ?_⟩
        exact ends_open_append _ _ (ends_open_header _ _ _ hpre)
  · rw [habort]
    refine ⟨rfl, hwhole, ?_, ?_⟩
    · intro s hs
      cases hs
    · intro e s hs
      cases hs
      exact ⟨rfl, fun hne => absurd rfl hne⟩

theorem run_events_whole (events : List type_node) (st : plugin_state)
    (hpending : st.pending = "") (hwhole : whole_records st.target_struct st.flushed) :
    (∀ s, run_events st events = returned s →
        s.pending = "" ∧ whole_records st.target_struct s.flushed)
    ∧ (∀ e s, run_events st events = aborted e s →
        whole_records st.target_struct s.flushed
        ∧ (e ≠ .indeterminate_next → ends_open (written s))) := by
  induction events generalizing st with
  | nil =>
    refine ⟨fun s hs => ?_, fun e s hs => ?_⟩
    · cases hs
      exact ⟨hpending, hwhole⟩
    · cases hs
  | cons t rest ih =>
    obtain ⟨htarget, hw1, hp1, ha1⟩ := plugin_finish_type_whole st t hpending hwhole
    cases hrun : plugin_finish_type st t with
    | aborted e1 s1 =>
      have hstep : run_events st (t :: rest) = aborted e1 s1 := by
        simp only [run_events, hrun]
      rw [hstep]
      refine ⟨fun s hs => (by cases hs), fun e s hs => ?_⟩
      cases hs
      rw [hrun] at hw1
      exact ⟨hw1, (ha1 e1 s1 hrun).2⟩
    | returned s1 =>
      have hstep : run_events st (t :: rest) = run_events s1 rest := by
        simp only [run_events, hrun]
      rw [hrun] at hw1 htarget
      simp only [outcome.state] at hw1 htarget
      have := ih s1 (hp1 s1 hrun) (by rw [htarget]; exact hw1)
      rw [htarget] at this
      rw [hstep]
      exact this

/-- C13 as stated fails. From start-up with target `T`, the event
`struct T { int x; double d[2]; int y; }` aborts on `d` after the header and the
line of `x` were handed to stdio. The host ends the process through `exit`,
which writes that text out: the file then holds a header and one record line
and no closing line, not whole blocks. Before that already, stdio was free to
write a part of it out, such as the header line alone. -/
theorem whole_records_fails_at_abort :
    run_events (start_state "T") [struct_T_x_d_y] = aborted .assert_inner_type
        { target_struct := "T", dumped_structs := .node "T" .indeterminate,
          pending := "T = [\n\tScalar('x', 0, 32, 'int'),\n", flushed := "" }
    ∧ file_at_exit (run_events (start_state "T") [struct_T_x_d_y])
        = "T = [\n\tScalar('x', 0, 32, 'int'),\n"
    ∧ ¬ whole_records "T" (file_at_exit (run_events (start_state "T") [struct_T_x_d_y]))
    ∧ file_may_hold (run_events (start_state "T") [struct_T_x_d_y]).state "T = [\n"
    ∧ ¬ whole_records "T" "T = [\n" := by
  refine ⟨by decide, by decide, ?_, by decide, ?_⟩
  · exact ends_open_not_whole _ _
      ⟨"T = [\n\tScalar('x', 0, 32, 'int')".data, ',', by decide, by decide⟩
  · exact ends_open_not_whole _ _ ⟨"T = ".data, '[', by decide, by decide⟩

/-- C13 (amended). Whole records while events return: start from an empty
buffer and a flushed text made of complete blocks (as right after start-up,
where it is empty). After every run of events that all returned, the buffer is
empty again, so the file holds the flushed text and nothing else, now and when
the process exits, and that text is a chain of complete blocks, each the header
line `name = [`, the record lines of fields that all classify, and the closing
line `]`. When the run ends in an abort, the text flushed by then is such a
chain too, but an abort on a field leaves an open block behind it: the text
written ends with a line other than `]`, and the file at exit, holding all of
it, is not a chain of complete blocks. -/
theorem whole_records_while_returning (st : plugin_state) (events : List type_node)
    (hpending : st.pending = "") (hwhole : whole_records st.target_struct st.flushed) :
    (∀ n s, run_events st (events.take n) = returned s →
        s.pending = "" ∧ whole_records st.target_struct s.flushed
        ∧ file_at_exit (returned s) = s.flushed
        ∧ ∀ text, file_may_hold s text → text = s.flushed)
    ∧ (∀ e s, run_events st events = aborted e s →
        whole_records st.target_struct s.flushed
        ∧ (e ≠ .indeterminate_next →
            ends_open (file_at_exit (aborted e s))
            ∧ ¬ whole_records st.target_struct (file_at_exit (aborted e s)))) := by
  refine ⟨fun n s hs => ?_, fun e s hs => ?_⟩
  · obtain ⟨hp, hw⟩ := (run_events_whole (events.take n) st hpending hwhole).1 s hs
    refine ⟨hp, hw, ?_, fun text ht => file_may_hold_of_flushed s text hp ht⟩
    simp [file_at_exit, outcome.state, written, hp]
  · obtain ⟨hw, ho⟩ := (run_events_whole events st hpending hwhole).2 e s hs
    exact ⟨hw, fun hne => ⟨ho hne, ends_open_not_whole _ _ (ho hne)⟩⟩

/-- Witness of C13 (amended): from start-up with target `T`, the run
`struct T { int x; }`, then `struct T { char c; int x; }` returns with one block
flushed and an empty buffer; the run `union T`, then
`struct T { int x; double d[2]; int y; }` aborts with an open block written. -/
theorem whole_records_while_returning_witness :
    (run_events (start_state "T") ([struct_T_x, struct_T_c_x].take 2) = returned
        { target_struct := "T", dumped_structs := .node "T" .indeterminate, pending := "",
          flushed := "T = [\n\tScalar('x', 0, 32, 'int'),\n]\n" }
      ∧ whole_records (start_state "T").target_struct
          "T = [\n\tScalar('x', 0, 32, 'int'),\n]\n")
    ∧ (run_events (start_state "T") [union_T_x, struct_T_x_d_y] = aborted .assert_inner_type
        { target_struct := "T", dumped_structs := .node "T" .indeterminate,
          pending := "T = [\n\tScalar('x', 0, 32, 'int'),\n", flushed := "" }
      ∧ ¬ whole_records (start_state "T").target_struct
          (file_at_exit (aborted .assert_inner_type
            { target_struct := "T", dumped_structs := .node "T" .indeterminate,
              pending := "T = [\n\tScalar('x', 0, 32, 'int'),\n", flushed := "" }))) :=
  ⟨⟨by decide,
      ((whole_records_while_returning (start_state "T") [struct_T_x, struct_T_c_x] rfl
        ⟨[], by simp, rfl⟩).1 2 _ rfl).2.1⟩,
    ⟨by decide,
      (((whole_records_while_returning (start_state "T") [union_T_x, struct_T_x_d_y] rfl
        ⟨[], by simp, rfl⟩).2 _ _ rfl).2 (by decide)).2⟩⟩

theorem accepts_iff (st : plugin_state) (type : type_node) :
    accepts st type = true ↔ (type.code = RECORD_TYPE ∧ type.fields ≠ []
        ∧ ORIG_TYPE_NAME type = some st.target_struct
        ∧ was_dumped st.dumped_structs st.target_struct = some false) := by
  unfold accepts
  cases hn : ORIG_TYPE_NAME type with
  | none => simp
  | some name =>
    simp only [Bool.and_eq_true, decide_eq_true_eq, Bool.not_eq_true', strcmp_eq_zero_iff,
      List.isEmpty_eq_false, Option.some.injEq]
    constructor
    · rintro ⟨⟨h1, h2⟩, h3, h4⟩
      subst h3
      exact ⟨h1, h2, rfl, h4⟩
    · rintro ⟨h1, h2, h3, h4⟩
      subst h3
      exact ⟨⟨h1, h2⟩, rfl, h4⟩

theorem headers_written_le (st : plugin_state) (events : List type_node) :
    headers_written st events ≤ 1
    ∧ (was_dumped st.dumped_structs st.target_struct = some true →
        headers_written st events = 0) := by
  induction events generalizing st with
  | nil => exact ⟨Nat.zero_le _, fun _ => rfl⟩
  | cons t rest ih =>
    rcases plugin_finish_type_cases st t with h | ⟨hcode, hfields, hname, hnew⟩ | ⟨hnone, habort⟩
    · by_cases ha : accepts st t = true
      · have hacc := (accepts_iff st t).1 ha
        obtain ⟨hcode, hfields, hname, hnew⟩ := hacc
        rcases plugin_finish_type_accepted st t hcode hfields hname hnew with
          ⟨_, hrun⟩ | ⟨e, k, bad, _, _, _, _, hrun⟩
        · rw [hrun] at h
          have hd := congrArg (fun o => o.state.dumped_structs) h
          simp only [outcome.state] at hd
          have hw := (add_dumped_of_absent _ _ hnew).2.1
          rw [hd, hnew] at hw
          cases hw
        · rw [hrun] at h
          cases h
      · simp only [headers_written, ha, h]
        obtain ⟨h1, h2⟩ := ih st
        exact ⟨by simpa using h1, fun hm => by simpa using h2 hm⟩
    · have ha : accepts st t = true := (accepts_iff st t).2 ⟨hcode, hfields, hname, hnew⟩
      refine ⟨?_, fun hm => by rw [hnew] at hm; cases hm⟩
      rcases plugin_finish_type_accepted st t hcode hfields hname hnew with
        ⟨_, hrun⟩ | ⟨e, k, bad, _, _, _, _, hrun⟩
      · simp only [headers_written, ha, hrun, if_true]
        rw [(ih _).2 (add_dumped_of_absent _ _ hnew).2.1]
      · simp only [headers_written, ha, hrun, if_true]
        exact Nat.le_refl _
    · have ha : ¬ accepts st t = true := fun ha => by
        have hnew := ((accepts_iff st t).1 ha).2.2.2
        rw [hnone] at hnew
        cases hnew
      simp only [headers_written, ha, habort]
      exact ⟨by simp, fun _ => by simp⟩

/-- C17. Registry invariant: from a state with an empty registry, after every
run of events the registry holds at most one entry, and an entry it holds is the
target name. At most one header is written in the run: at most one event of it
is accepted, and the text written is either none, or the header of the target,
record lines of fields of one of the events, and possibly the closing line. -/
theorem registry_holds_at_most_target (st : plugin_state) (events : List type_node)
    (hempty : st.dumped_structs = .NULL) :
    ((run_events st events).state.dumped_structs.names.length ≤ 1
      ∧ ∀ entry ∈ (run_events st events).state.dumped_structs.names, entry = st.target_struct)
    ∧ headers_written st events ≤ 1
    ∧ (((run_events st events).state.dumped_structs = .NULL
        ∧ (run_events st events).state.pending = st.pending
        ∧ (run_events st events).state.flushed = st.flushed)
      ∨ ((run_events st events).state.dumped_structs = .node st.target_struct .indeterminate
        ∧ ∃ type ∈ events, ∃ k, ∃ closing : String, k ≤ type.fields.length
          ∧ (closing = "" ∨ closing = "]\n")
          ∧ written (run_events st events).state = written st
              ++ (st.target_struct ++ " = [\n" ++ field_lines (type.fields.take k)
                ++ closing))) := by
  have main : ((run_events st events).state.dumped_structs = .NULL
        ∧ (run_events st events).state.pending = st.pending
        ∧ (run_events st events).state.flushed = st.flushed)
      ∨ ((run_events st events).state.dumped_structs = .node st.target_struct .indeterminate
        ∧ ∃ type ∈ events, ∃ k, ∃ closing : String, k ≤ type.fields.length
          ∧ (closing = "" ∨ closing = "]\n")
          ∧ written (run_events st events).state = written st
              ++ (st.target_struct ++ " = [\n" ++ field_lines (type.fields.take k)
                ++ closing)) := by
    induction events with
    | nil => exact Or.inl ⟨hempty, rfl, rfl⟩
    | cons t rest ih =>
      rcases plugin_finish_type_cases st t with
        h | ⟨hcode, hfields, hname, hnew⟩ | ⟨hnone, _⟩
      · simp only [run_events, h]
        rcases ih with h1 | ⟨h1, type, hmem, k, closing, hk, hc, hw⟩
        · exact Or.inl h1
        · exact Or.inr ⟨h1, type, List.mem_cons_of_mem t hmem, k, closing, hk, hc, hw⟩
      · right
        rcases plugin_finish_type_accepted st t hcode hfields hname hnew with
          ⟨_, hrun⟩ | ⟨e, k, bad, hk, _, _, _, hrun⟩
        · simp only [run_events, hrun]
          rw [run_events_noop_of_dumped _ rest (add_dumped_of_absent _ _ hnew).2.1]
          refine ⟨by simp [outcome.state, hempty, name_list.link], t,
            List.mem_cons_self t rest, t.fields.length, "]\n", Nat.le_refl _, Or.inr rfl, ?_⟩
          simp [outcome.state, written, record_block, String.append_assoc]
        · simp only [run_events, hrun]
          refine ⟨by simp [outcome.state, hempty, name_list.link], t,
            List.mem_cons_self t rest, k, "", Nat.le_of_lt hk, Or.inl rfl, ?_⟩
          simp [outcome.state, written, String.append_assoc]
      · rw [hempty] at hnone
        cases hnone
  refine ⟨?_, (headers_written_le st events).1, main⟩
  rcases main with ⟨h, _, _⟩ | ⟨h, _⟩
  · rw [h]; simp [name_list.names]
  · rw [h]; simp [name_list.names]

/-- Witness of C17: from start-up with target `T`, the run `struct point`,
`struct T { int x; }`, `struct T { char c; int x; }` writes one header. -/
theorem registry_holds_at_most_target_witness :
    run_events (start_state "T") [struct_point, struct_T_x, struct_T_c_x] = returned
        { target_struct := "T", dumped_structs := .node "T" .indeterminate, pending := "",
          flushed := "T = [\n\tScalar('x', 0, 32, 'int'),\n]\n" }
    ∧ headers_written (start_state "T") [struct_point, struct_T_x, struct_T_c_x] = 1
    ∧ headers_written (start_state "T") [struct_point, struct_T_x, struct_T_c_x] ≤ 1 :=
  ⟨by decide, by decide,
    (registry_holds_at_most_target (start_state "T") [struct_point, struct_T_x, struct_T_c_x]
      rfl).2.1⟩

/-! ## The classifier against its specification -/

theorem field_offset_value_error (f : field_decl) (e : failure)
    (h : field_offset_value f = .error e) :
    e = .assert_field_offset ∨ e = .assert_field_bit_offset := by
  unfold field_offset_value at h
  split at h
  · split at h
    · cases h
    · exact Or.inr (Except.error.inj h).symm
  · exact Or.inl (Except.error.inj h).symm

theorem classify_finish_error (f : field_decl) (fname cls : String) (size : Nat)
    (ne : Option Nat) (t : type_tree) (e : failure)
    (h : classify_finish f fname cls size ne t = .error e) :
    e = .null_type_identifier ∨ e = .assert_field_offset ∨ e = .assert_field_bit_offset := by
  unfold classify_finish at h
  cases ht : t.TYPE_IDENTIFIER with
  | none =>
    simp only [ht] at h
    exact Or.inl (Except.error.inj h).symm
  | some tname =>
    cases ho : field_offset_value f with
    | error e1 =>
      simp only [ht, ho] at h
      rw [← Except.error.inj h]
      exact Or.inr (field_offset_value_error f e1 ho)
    | ok o => simp [ht, ho] at h

theorem classify_field_eq_spec (f : field_decl) : classify_field f = classify_field_spec f := by
  unfold classify_field classify_field_spec
  by_cases hc : f.code = FIELD_DECL
  swap
  · simp [hc]
  simp only [hc, ne_eq, not_true_eq_false, if_false]
  cases hn : f.decl_name with
  | none => rfl
  | some fname =>
    simp only []
    by_cases ha : f.type.TREE_CODE = ARRAY_TYPE
    · simp only [ha, if_true]
      cases hs : f.type.TYPE_SIZE with
      | none => rfl
      | some size =>
        cases hu : f.type.TYPE_SIZE_UNIT with
        | none => rfl
        | some su =>
          simp only []
          cases he : f.type.TREE_TYPE with
          | none => rfl
          | some elem =>
            simp only []
            by_cases hal : is_allowed_inner_type elem = true
            · simp only [hal, if_true]
              cases hes : elem.TYPE_SIZE with
              | none => rfl
              | some es =>
                simp only []
                rw [classify_tail_not_pointer _ _ _ _ _ _ (not_pointer_of_allowed _ hal)]
            · simp [hal]
    · simp only [ha, if_false]
      cases hs : f.type.TYPE_SIZE with
      | none => rfl
      | some size =>
        simp only []
        unfold classify_tail
        rfl

theorem array_of_pointers_asserts (f : field_decl) (fname : String) (size su : Nat)
    (elem : type_tree) (hc : f.code = FIELD_DECL) (hn : f.decl_name = some fname)
    (ha : f.type.TREE_CODE = ARRAY_TYPE) (hs : f.type.TYPE_SIZE = some size)
    (hu : f.type.TYPE_SIZE_UNIT = some su) (he : f.type.TREE_TYPE = some elem)
    (hp : POINTER_TYPE_P elem = true) : classify_field f = .error .assert_inner_type := by
  have hal : is_allowed_inner_type elem = false := by
    cases hx : is_allowed_inner_type elem with
    | false => rfl
    | true =>
      have := not_pointer_of_allowed elem hx
      rw [hp] at this
      cases this
  simp [classify_field, hc, hn, ha, hs, hu, he, hal]

theorem classify_field_error_kinds (f : field_decl) (e : failure)
    (h : classify_field f = .error e) :
    e ≠ .unreachable ∧ e ≠ .uninitialised_num_elem := by
  rw [classify_field_eq_spec] at h
  unfold classify_field_spec at h
  have fin : ∀ (fname cls : String) (size : Nat) (ne : Option Nat) (t : type_tree),
      classify_finish f fname cls size ne t = .error e →
      e ≠ .unreachable ∧ e ≠ .uninitialised_num_elem := by
    intro fname cls size ne t hf
    rcases classify_finish_error f fname cls size ne t e hf with h1 | h1 | h1 <;>
      rw [h1] <;> exact ⟨by decide, by decide⟩
  have lit : ∀ e1 : failure, (Except.error e1 : Except failure field_record) = .error e →
      e1 ≠ .unreachable → e1 ≠ .uninitialised_num_elem →
      e ≠ .unreachable ∧ e ≠ .uninitialised_num_elem := by
    intro e1 h1 h2 h3
    rw [← Except.error.inj h1]
    exact ⟨h2, h3⟩
  repeat' split at h
  all_goals first
    | exact lit _ h (by decide) (by decide)
    | exact fin _ _ _ _ _ h

/-- C14 as stated fails: in `struct T { struct { int a; } s; }` the field `s` is
neither an array nor a pointer, yet no record is emitted for it: its type has no
name, and the run is aborted right after the header, at the read of the type
name (lines 176-177). -/
theorem scalar_default_fails_at_unnamed_type :
    unnamed_struct_type.TREE_CODE ≠ ARRAY_TYPE
    ∧ POINTER_TYPE_P unnamed_struct_type = false
    ∧ classify_field (field_at "s" unnamed_struct_type 0 0) = .error .null_type_identifier
    ∧ plugin_finish_type (start_state "T") struct_T_s = aborted .null_type_identifier
        { target_struct := "T", dumped_structs := .node "T" .indeterminate, pending := "T = [\n", flushed := "" } := by
  refine ⟨by decide, rfl, rfl, by decide⟩

/-- C14 (amended). Scalar default: a field whose declared type is neither an
array nor a pointer never ends on the allowed-inner-kind check, and no inner
type of it is looked at, whatever its kind tag. In an accepted aggregate, such a
field that follows supported fields, has a name and a declared type with a name
gets the record of class `Scalar` whose type name is the declared type's own
name and whose size is the declared type's own `TYPE_SIZE`; its line is written
right after the lines of the fields before it. -/
theorem scalar_default :
    (∀ (f : field_decl) (e : failure), f.type.TREE_CODE ≠ ARRAY_TYPE →
      POINTER_TYPE_P f.type = false → classify_field f = .error e →
      e ≠ .assert_inner_type ∧ e ≠ .null_inner_type)
    ∧ (∀ (st : plugin_state) (type : type_node) (pre post : List field_decl) (f : field_decl)
      (fname tname : String) (size : Nat) (o : Int),
      type.code = RECORD_TYPE → ORIG_TYPE_NAME type = some st.target_struct →
      was_dumped st.dumped_structs st.target_struct = some false → type.fields = pre ++ f :: post →
      (∀ g ∈ pre, supported_field g = true) →
      f.code = FIELD_DECL → f.decl_name = some fname →
      f.type.TREE_CODE ≠ ARRAY_TYPE → POINTER_TYPE_P f.type = false →
      f.type.TYPE_SIZE = some size → f.type.TYPE_IDENTIFIER = some tname →
      field_offset_value f = .ok o →
      classify_field f = .ok ⟨"Scalar", fname, o, TREE_INT_CST_LOW size, none, tname⟩
      ∧ ∃ rest, written (plugin_finish_type st type).state
          = written st ++ (st.target_struct ++ " = [\n" ++ field_lines pre
            ++ ("\tScalar('" ++ fname ++ "', " ++ toString o ++ ", "
              ++ toString (to_int size) ++ ", '" ++ tname ++ "'),\n") ++ rest)) := by
  refine ⟨?_, ?_⟩
  · intro f e ha hp h
    rw [classify_field_eq_spec] at h
    unfold classify_field_spec at h
    have fin : ∀ (fname cls : String) (size : Nat) (ne : Option Nat) (t : type_tree),
        classify_finish f fname cls size ne t = .error e →
        e ≠ .assert_inner_type ∧ e ≠ .null_inner_type := by
      intro fname cls size ne t hf
      rcases classify_finish_error f fname cls size ne t e hf with h1 | h1 | h1 <;>
        rw [h1] <;> exact ⟨by decide, by decide⟩
    have lit : ∀ e1 : failure, (Except.error e1 : Except failure field_record) = .error e →
        e1 ≠ .assert_inner_type → e1 ≠ .null_inner_type →
        e ≠ .assert_inner_type ∧ e ≠ .null_inner_type := by
      intro e1 h1 h2 h3
      rw [← Except.error.inj h1]
      exact ⟨h2, h3⟩
    simp only [ha, hp, if_false, Bool.false_eq_true] at h
    repeat' split at h
    all_goals first
      | exact lit _ h (by decide) (by decide)
      | exact fin _ _ _ _ _ h
  · intro st type pre post f fname tname size o hcode hname hnew hfields hpre hc hn ha hp hs ht
      ho
    have hcl := classify_scalar f fname tname size o hc hn ha hp hs ht ho
    refine ⟨hcl, ?_⟩
    have hok : ∀ g ∈ pre ++ [f], ∃ r, classify_field g = .ok r := by
      intro g hg
      rcases List.mem_append.1 hg with hg | hg
      · exact supported_field_classifies g (hpre g hg)
      · rw [List.mem_singleton] at hg
        exact ⟨_, hg ▸ hcl⟩
    have hfields2 : type.fields = (pre ++ [f]) ++ post := by simp [hfields]
    have hne : type.fields ≠ [] := by simp [hfields]
    obtain ⟨more, hmore⟩ := plugin_finish_type_written st type (pre ++ [f]) post hcode hfields2
      hne hname hnew hok
    refine ⟨more, ?_⟩
    rw [hmore]
    simp only [field_lines_append, field_lines, field_line, hcl, record_text_scalar, to_int_low,
      String.append_assoc, String.append_empty]

/-- Witness of C14: the field `d` of `struct T { double d; }`, of a
floating-point type, is emitted as `Scalar('d', 0, 64, 'double')`. -/
theorem scalar_default_witness :
    plugin_finish_type (start_state "T") struct_T_d = returned
        { target_struct := "T", dumped_structs := .node "T" .indeterminate, pending := "",
          flushed := "T = [\n\tScalar('d', 0, 64, 'double'),\n]\n" }
    ∧ classify_field (field_at "d" double_type 0 0)
        = .ok ⟨"Scalar", "d", 0, TREE_INT_CST_LOW 64, none, "double"⟩
    ∧ ∃ rest, written (plugin_finish_type (start_state "T") struct_T_d).state
        = written (start_state "T") ++ ((start_state "T").target_struct ++ " = [\n"
          ++ field_lines []
          ++ ("\tScalar('" ++ "d" ++ "', " ++ toString (0 : Int) ++ ", "
            ++ toString (to_int 64) ++ ", '" ++ "double" ++ "'),\n") ++ rest) :=
  ⟨by decide, scalar_default.2 (start_state "T") struct_T_d [] [] (field_at "d" double_type 0 0)
    "d" "double" 64 0 rfl rfl (by decide) rfl (by simp) rfl rfl (by decide) rfl rfl rfl rfl⟩

/-- C15. Field record invariant: the record computed for a field has class
`Scalar`, `Pointer` or `Array`. With class `Scalar` or `Pointer` it has no
element count and its line carries four components: name, offset, size and one
type name. With class `Array` it has a count and its line carries five: name,
offset, total size, count and element type name. The serializer returns on it
with that line written, and no call of the callback ends in the
`gcc_unreachable` branch or on an unset count. -/
theorem emitted_record_invariant :
    (∀ (f : field_decl) (r : field_record), classify_field f = .ok r →
      (r.field_class = "Scalar" ∨ r.field_class = "Pointer" ∨ r.field_class = "Array")
      ∧ ((r.field_class = "Scalar" ∨ r.field_class = "Pointer") →
          r.num_elem = none
          ∧ record_text r = "\t" ++ r.field_class ++ "('" ++ r.field_name ++ "', "
              ++ toString r.offset ++ ", " ++ toString (to_int r.field_size) ++ ", '"
              ++ r.field_type_name ++ "'),\n")
      ∧ (r.field_class = "Array" →
          ∃ count, r.num_elem = some count
          ∧ record_text r = "\t" ++ r.field_class ++ "('" ++ r.field_name ++ "', "
              ++ toString r.offset ++ ", " ++ toString (to_int r.field_size) ++ ", "
              ++ toString (to_int count) ++ ", '" ++ r.field_type_name ++ "'),\n")
      ∧ ∀ st, print_field st r = returned (fprintf st (record_text r)))
    ∧ (∀ (st : plugin_state) (type : type_node) (e : failure) (s : plugin_state),
      plugin_finish_type st type = aborted e s →
      e ≠ .unreachable ∧ e ≠ .uninitialised_num_elem) := by
  have e2 : "'" ++ "),\n" = "'),\n" := by decide
  refine ⟨?_, ?_⟩
  · intro f r h
    have hprint := fun st => print_field_of_classify st f r h
    obtain ⟨_, fname, offset, size, _, _, _, hshape⟩ := classify_field_ok_inv f r h
    have ne1 : ¬ ("Array" = "Scalar" ∨ "Array" = "Pointer") := by decide
    have ne2 : ¬ "Pointer" = "Array" := by decide
    have ne3 : ¬ "Scalar" = "Array" := by decide
    rcases hshape with ⟨_, su, elem, tname, _, _, _, _, hr⟩ | ⟨_, _, p, tname, _, _, _, hr⟩
      | ⟨_, _, tname, _, hr⟩
    · refine ⟨Or.inr (Or.inr (by rw [hr])), ?_, ?_, hprint⟩
      · intro hcls
        rw [hr] at hcls
        exact absurd hcls ne1
      · intro _
        refine ⟨TREE_INT_CST_LOW su, by rw [hr], ?_⟩
        rw [hr]
        simp only [record_text, printf_d_size, printf_d, String.append_assoc, e2]
    · refine ⟨Or.inr (Or.inl (by rw [hr])), ?_, ?_, hprint⟩
      · intro _
        refine ⟨by rw [hr], ?_⟩
        rw [hr]
        simp only [record_text, printf_d_size, printf_d, String.append_assoc, e2]
      · intro hcls
        rw [hr] at hcls
        exact absurd hcls ne2
    · refine ⟨Or.inl (by rw [hr]), ?_, ?_, hprint⟩
      · intro _
        refine ⟨by rw [hr], ?_⟩
        rw [hr]
        simp only [record_text, printf_d_size, printf_d, String.append_assoc, e2]
      · intro hcls
        rw [hr] at hcls
        exact absurd hcls ne3
  · intro st type e s h
    rcases plugin_finish_type_cases st type with
      h1 | ⟨hcode, hfields, hname, hnew⟩ | ⟨_, habort⟩
    · rw [h1] at h
      cases h
    · rcases plugin_finish_type_accepted st type hcode hfields hname hnew with
        ⟨_, hrun⟩ | ⟨e1, k, bad, _, _, _, hbad, hrun⟩
      · rw [hrun] at h
        cases h
      · rw [hrun] at h
        cases h
        exact classify_field_error_kinds bad e hbad
    · rw [habort] at h
      cases h
      exact ⟨by decide, by decide⟩

/-- Witness of C15: the array field `v` of `struct T { int x; int v[3]; }`. -/
theorem emitted_record_invariant_witness :
    ∃ r, classify_field (field_at "v" (array_of int_type 4 3) 0 32) = .ok r
      ∧ r.field_class = "Array" ∧ r.num_elem = some 12
      ∧ record_text r = "\tArray('v', 32, 96, 12, 'int'),\n"
      ∧ (r.field_class = "Scalar" ∨ r.field_class = "Pointer" ∨ r.field_class = "Array")
      ∧ ∀ st, print_field st r = returned (fprintf st (record_text r)) :=
  ⟨⟨"Array", "v", 32, 96, some 12, "int"⟩, rfl, rfl, rfl, by decide,
    (emitted_record_invariant.1 (field_at "v" (array_of int_type 4 3) 0 32)
      ⟨"Array", "v", 32, 96, some 12, "int"⟩ rfl).1,
    (emitted_record_invariant.1 (field_at "v" (array_of int_type 4 3) 0 32)
      ⟨"Array", "v", 32, 96, some 12, "int"⟩ rfl).2.2.2⟩

/-- C16. Array and pointer are exclusive branches: on every field the loop body,
which tests for a pointer type after the array descent, gives the result of the
if/else algorithm of the specification (array, else pointer, else scalar),
records and failures alike. A field whose declared type is an array is only ever
recorded with class `Array`, never `Pointer`; and an array whose element type is
a pointer or reference ends on the failed allowed-inner-kind assertion. -/
theorem classifier_is_if_else :
    (∀ f : field_decl, classify_field f = classify_field_spec f)
    ∧ (∀ (f : field_decl) (r : field_record), f.type.TREE_CODE = ARRAY_TYPE →
        classify_field f = .ok r → r.field_class = "Array" ∧ r.field_class ≠ "Pointer")
    ∧ (∀ (f : field_decl) (fname : String) (size su : Nat) (elem : type_tree),
        f.code = FIELD_DECL → f.decl_name = some fname → f.type.TREE_CODE = ARRAY_TYPE →
        f.type.TYPE_SIZE = some size → f.type.TYPE_SIZE_UNIT = some su →
        f.type.TREE_TYPE = some elem → POINTER_TYPE_P elem = true →
        classify_field f = .error .assert_inner_type) := by
  refine ⟨classify_field_eq_spec, ?_, ?_⟩
  · intro f r ha h
    obtain ⟨_, fname, offset, size, _, _, _, hshape⟩ := classify_field_ok_inv f r h
    rcases hshape with ⟨_, su, elem, tname, _, _, _, _, hr⟩ | ⟨hna, _⟩ | ⟨hna, _⟩
    · rw [hr]
      have hne : "Array" ≠ "Pointer" := by decide
      exact ⟨rfl, hne⟩
    · exact absurd ha hna
    · exact absurd ha hna
  · intro f fname size su elem hc hn ha hs hu he hp
    exact array_of_pointers_asserts f fname size su elem hc hn ha hs hu he hp

/-- Witness of C16: the field `int *v[2];`, an array of pointers. -/
theorem classifier_is_if_else_witness :
    classify_field field_v_pointers = .error .assert_inner_type
    ∧ classify_field_spec field_v_pointers = .error .assert_inner_type :=
  ⟨classifier_is_if_else.2.2 field_v_pointers "v" 128 16 (pointer_to int_type) rfl rfl rfl rfl
    rfl rfl rfl, rfl⟩

/-! ## The unset pointer in a run -/

theorem classify_field_error_ne_next (f : field_decl) (e : failure)
    (h : classify_field f = .error e) : e ≠ .indeterminate_next := by
  rw [classify_field_eq_spec] at h
  unfold classify_field_spec at h
  have fin : ∀ (fname cls : String) (size : Nat) (ne : Option Nat) (t : type_tree),
      classify_finish f fname cls size ne t = .error e → e ≠ .indeterminate_next := by
    intro fname cls size ne t hf
    rcases classify_finish_error f fname cls size ne t e hf with h1 | h1 | h1 <;>
      rw [h1] <;> decide
  have lit : ∀ e1 : failure, (Except.error e1 : Except failure field_record) = .error e →
      e1 ≠ .indeterminate_next → e ≠ .indeterminate_next := by
    intro e1 h1 h2
    rw [← Except.error.inj h1]
    exact h2
  repeat' split at h
  all_goals first
    | exact lit _ h (by decide)
    | exact fin _ _ _ _ _ h

/-- While the walk for the target is defined, a call keeps it defined and does
not read an unset `next`. -/
theorem plugin_finish_type_walk_defined (st : plugin_state) (type : type_node)
    (hdef : was_dumped st.dumped_structs st.target_struct ≠ none) :
    (plugin_finish_type st type).state.target_struct = st.target_struct
    ∧ was_dumped (plugin_finish_type st type).state.dumped_structs st.target_struct ≠ none
    ∧ ∀ s, plugin_finish_type st type ≠ aborted .indeterminate_next s := by
  rcases plugin_finish_type_cases st type with
    h | ⟨hcode, hfields, hname, hnew⟩ | ⟨hnone, _⟩
  · rw [h]
    exact ⟨rfl, hdef, fun s hs => by cases hs⟩
  · have hw := (add_dumped_of_absent _ _ hnew).2.1
    rcases plugin_finish_type_accepted st type hcode hfields hname hnew with
      ⟨_, hrun⟩ | ⟨e, k, bad, _, _, _, hbad, hrun⟩
    · rw [hrun]
      refine ⟨rfl, ?_, fun s hs => by cases hs⟩
      simp only [outcome.state, hw]
      exact fun hn => by cases hn
    · rw [hrun]
      refine ⟨rfl, ?_, fun s hs => ?_⟩
      · simp only [outcome.state, hw]
        exact fun hn => by cases hn
      · cases hs
        exact classify_field_error_ne_next bad _ hbad rfl
  · exact absurd hnone hdef

/-- A run that starts with the walk for the target defined, as it is on the
empty chain, never reads an unset `next`: the only name looked up or added is
the target, which the first node of the chain holds from the first `add_dumped`
on. -/
theorem run_events_reads_no_unset_next (st : plugin_state) (events : List type_node)
    (hdef : was_dumped st.dumped_structs st.target_struct ≠ none) :
    ∀ s, run_events st events ≠ aborted .indeterminate_next s := by
  induction events generalizing st with
  | nil => exact fun s hs => by cases hs
  | cons t rest ih =>
    obtain ⟨htarget, hwalk, hno⟩ := plugin_finish_type_walk_defined st t hdef
    cases hrun : plugin_finish_type st t with
    | aborted e1 s1 =>
      have hstep : run_events st (t :: rest) = aborted e1 s1 := by
        simp only [run_events, hrun]
      rw [hstep]
      intro s hs
      cases hs
      exact hno s1 hrun
    | returned s1 =>
      have hstep : run_events st (t :: rest) = run_events s1 rest := by
        simp only [run_events, hrun]
      rw [hrun] at htarget hwalk
      simp only [outcome.state] at htarget hwalk
      rw [hstep]
      exact ih s1 (by rw [htarget]; exact hwalk)

end StructLayout
